import Mathlib

/-!
Verification of the Zeus scheduling engine
(`custom_components/zeus/scheduler.py`).

Shallow embedding conventions:
* Python `datetime` values are rationals counting seconds from an epoch that
  falls on a local midnight, so a day starts at a multiple of 86400 and an
  hour at a multiple of 3600.  `datetime.replace(...)` calls become floor
  computations on those rationals.
* Python `float` arithmetic is modelled with `ℚ`.
* The per-pass slot dictionary (`dict[datetime, _SlotInfo]`, unique keys,
  insertion order preserved) is modelled as a `List SlotInfo`; a dict update
  of one key becomes a `map` that rewrites the unique matching element.
* In-place mutation becomes explicit state passing: functions that mutate
  the slot pool return the new pool.
* The `while True` loop of `_apply_cost_optimal` is modelled with explicit
  fuel; `applyCostOptimalFuel_congr` below proves the fuel used by
  `applyCostOptimal` is enough, i.e. adding fuel never changes the result,
  so the fuelled function agrees with the unbounded loop.
* Diagnostic `reason` strings are kept, except that numeric interpolations
  (Python f-string pieces such as temperatures) are elided, keeping the
  constant prefix that identifies the branch.
-/

namespace Zeus

/-! ### Time helpers (`datetime` arithmetic used by the scheduler) -/

/-- `SLOT_DURATION_MIN` from `const.py`. -/
def SLOT_DURATION_MIN : ℚ := 15

/-- Seconds in one scheduling slot. -/
def slotDurS : ℚ := 60 * SLOT_DURATION_MIN

/-- Start of the hour containing `t` (`t.replace(minute=0, second=0, microsecond=0)`). -/
def hourStart (t : ℚ) : ℚ := 3600 * ⌊t / 3600⌋

/-- Start of the day containing `t` (`t.replace(hour=0, minute=0, second=0, microsecond=0)`). -/
def dayStart (t : ℚ) : ℚ := 86400 * ⌊t / 86400⌋

/-- The `minute` attribute of the datetime `t`. -/
def minuteOf (t : ℚ) : ℤ := ⌊(t - hourStart t) / 60⌋

/-- `t.replace(minute=(t.minute // 15) * 15, second=0, microsecond=0)`:
the pattern used both by `_get_current_slot_start` and by the delay-offset
snapping in `_rank_delay_interval_windows`. -/
def snapToSlot (t : ℚ) : ℚ := hourStart t + 60 * (((minuteOf t / 15) * 15 : ℤ) : ℚ)

/-- `_get_current_slot_start` from `scheduler.py`. -/
def getCurrentSlotStart (now : ℚ) : ℚ := snapToSlot now

/-- A `datetime.time` value (deadline of a switch device). -/
structure TimeOfDay where
  hour : ℕ
  minute : ℕ
  second : ℕ
deriving Repr, DecidableEq

/-- `now.replace(hour=deadline.hour, minute=deadline.minute, second=deadline.second,
microsecond=0)` as computed in `_get_eligible_slots`. -/
def deadlineDt (now : ℚ) (d : TimeOfDay) : ℚ :=
  dayStart now + 3600 * (d.hour : ℚ) + 60 * (d.minute : ℚ) + (d.second : ℚ)

/-! ### Data model -/

/-- Stable insertion of `a` into a sorted list: `a` goes immediately before
the first element strictly greater than it (`le a b` but not `le b a`), so
runs of equal keys keep their original order, as Python's stable sort does. -/
def insertSorted (le : α → α → Bool) (a : α) : List α → List α
  | [] => [a]
  | b :: l => if le a b && !(le b a) then a :: b :: l else b :: insertSorted le a l

/-- Stable insertion sort, modelling Python's `sorted` / `list.sort`. -/
def listSort (le : α → α → Bool) (l : List α) : List α :=
  l.foldl (fun acc a => insertSorted le a acc) []

/-- `PriceSlot` from `coordinator.py`.  The scheduler defends against `None`
prices (`slot.price if slot.price is not None else 0.0`), hence `Option`. -/
structure PriceSlot where
  start_time : ℚ
  price : Option ℚ
  energy_price : Option ℚ
deriving Repr, DecidableEq

/-- `_SlotInfo` from `scheduler.py`. -/
structure SlotInfo where
  start_time : ℚ
  price : ℚ
  energy_price : ℚ
  solar_production_w : ℚ
  solar_surplus_w : ℚ
  remaining_solar_w : ℚ
deriving Repr, DecidableEq, Inhabited

/-- The per-pass slot pool: `dict[datetime, _SlotInfo]` keyed by `start_time`. -/
abbrev Pool := List SlotInfo

/-- `DeviceScheduleRequest` from `scheduler.py`. -/
structure DeviceScheduleRequest where
  subentry_id : String
  name : String
  switch_entity : String
  power_sensor : String
  peak_usage_w : ℚ
  daily_runtime_min : ℚ
  deadline : TimeOfDay
  priority : ℤ
  min_cycle_time_min : ℚ := 0
  runtime_today_min : ℚ := 0
  is_on : Bool := false
  actual_usage_w : Option ℚ := none
  use_actual_power : Bool := false
deriving Repr, DecidableEq

/-- `DeviceScheduleRequest.effective_usage_w`. -/
def effectiveUsageW (d : DeviceScheduleRequest) : ℚ :=
  match d.actual_usage_w with
  | some a => if d.use_actual_power && d.is_on && decide (0 ≤ a) then a else d.peak_usage_w
  | none => d.peak_usage_w

/-- `DeviceScheduleRequest.remaining_runtime_min`. -/
def remainingRuntimeMin (d : DeviceScheduleRequest) : ℚ :=
  max 0 (d.daily_runtime_min - d.runtime_today_min)

/-- `DeviceScheduleRequest.remaining_slots_needed` (`math.ceil(rem / 15)`;
non-negative because the remaining runtime is clamped at 0). -/
def remainingSlotsNeeded (d : DeviceScheduleRequest) : ℕ :=
  (⌈remainingRuntimeMin d / SLOT_DURATION_MIN⌉).toNat

/-- `ScheduleResult` from `scheduler.py`. -/
structure ScheduleResult where
  subentry_id : String
  should_be_on : Bool
  remaining_runtime_min : ℚ
  scheduled_slots : List ℚ := []
  reason : String := ""
deriving Repr, DecidableEq

/-- `_DeviceState` from `scheduler.py`. -/
structure DeviceState where
  remaining_needed : ℕ
  assigned_slots : List ℚ := []
  forced_on : Bool := false
deriving Repr, DecidableEq, Inhabited

/-- The `states` dict of the scheduling pass, keyed by `subentry_id`. -/
abbrev States := String → DeviceState

/-- Write one key of the `states` dict. -/
def updateState (st : States) (id : String) (v : DeviceState) : States :=
  fun k => if k = id then v else st k

/-! ### Slot pool construction (`_build_slot_info`, `_apply_live_solar_override`) -/

/-- Insertion into the `dict[datetime, _SlotInfo]`: overwrite the value of an
existing key in place, otherwise append. -/
def insertSlot (pool : Pool) (s : SlotInfo) : Pool :=
  if pool.any (fun t => t.start_time == s.start_time) then
    pool.map (fun t => if t.start_time == s.start_time then s else t)
  else
    pool ++ [s]

/-- The body of the `for slot in price_slots` loop in `_build_slot_info`.
The hourly forecast arrives already keyed by hour-start datetimes (the ISO
string parsing of the Python code is external plumbing). -/
def buildSlotInfoLoop (solar_by_hour : List (ℚ × ℚ)) (home_consumption_w : ℚ) (now : ℚ) :
    List PriceSlot → Pool → Pool
  | [], acc => acc
  | slot :: rest, acc =>
    if slot.start_time + slotDurS ≤ now then
      buildSlotInfoLoop solar_by_hour home_consumption_w now rest acc
    else
      let price := slot.price.getD 0
      let energy_price := slot.energy_price.getD 0
      let solar_production_w :=
        ((solar_by_hour.find? (fun p => p.1 == hourStart slot.start_time)).map Prod.snd).getD 0
      let solar_surplus_w := max 0 (solar_production_w - home_consumption_w)
      buildSlotInfoLoop solar_by_hour home_consumption_w now rest
        (insertSlot acc
          { start_time := slot.start_time
            price := price
            energy_price := energy_price
            solar_production_w := solar_production_w
            solar_surplus_w := solar_surplus_w
            remaining_solar_w := solar_surplus_w })

/-- The slot dictionary built by the loop of `_build_slot_info`, before the
live-solar override. -/
def buildSlotInfoBase (price_slots : List PriceSlot) (solar_by_hour : List (ℚ × ℚ))
    (home_consumption_w : ℚ) (now : ℚ) : Pool :=
  buildSlotInfoLoop solar_by_hour home_consumption_w now price_slots []

/-- `_apply_live_solar_override` from `scheduler.py`. -/
def applyLiveSolarOverride (pool : Pool) (live_solar_surplus_w : Option ℚ) (now : ℚ) : Pool :=
  match live_solar_surplus_w with
  | none => pool
  | some live =>
    let cur := getCurrentSlotStart now
    match pool.find? (fun s => s.start_time == cur) with
    | none => pool
    | some current =>
      if live ≤ current.solar_surplus_w then pool
      else
        let forecast_surplus := current.solar_surplus_w
        let pool1 :=
          if 0 < forecast_surplus then
            let bias := live / forecast_surplus
            if 1 < bias then
              pool.map (fun s =>
                if cur < s.start_time ∧ 0 < s.solar_surplus_w then
                  let adjusted := s.solar_surplus_w * bias
                  { s with solar_surplus_w := adjusted, remaining_solar_w := adjusted }
                else s)
            else pool
          else pool
        pool1.map (fun s =>
          if s.start_time == cur then
            { s with solar_surplus_w := live, remaining_solar_w := live }
          else s)

/-- `_build_slot_info` from `scheduler.py`. -/
def buildSlotInfo (price_slots : List PriceSlot) (solar_by_hour : List (ℚ × ℚ))
    (home_consumption_w : ℚ) (now : ℚ) (live_solar_surplus_w : Option ℚ) : Pool :=
  applyLiveSolarOverride
    (buildSlotInfoBase price_slots solar_by_hour home_consumption_w now)
    live_solar_surplus_w now

/-! ### Marginal cost (`_cost_for_device_in_slot`) -/

/-- `_cost_for_device_in_slot` from `scheduler.py`. -/
def costForDeviceInSlot (slot : SlotInfo) (device_peak_w : ℚ) : ℚ :=
  let feed_in := slot.energy_price
  if device_peak_w ≤ slot.remaining_solar_w then
    if 0 < feed_in then -feed_in else -1
  else if 0 < slot.remaining_solar_w then
    let solar_fraction := slot.remaining_solar_w / device_peak_w
    let grid_cost := slot.price * (1 - solar_fraction)
    if 0 < feed_in then grid_cost - feed_in * solar_fraction else grid_cost
  else
    slot.price

/-! ### Eligible slots and solar accounting -/

/-- `_get_eligible_slots` from `scheduler.py`. -/
def getEligibleSlots (pool : Pool) (now : ℚ) (deadline : TimeOfDay) : List ℚ :=
  let deadline_dt := deadlineDt now deadline
  if deadline_dt ≤ now then []
  else
    ((pool.filter (fun s => decide (s.start_time < deadline_dt))).map
      (fun s => s.start_time)) |> listSort (fun a b => decide (a ≤ b))

/-- `_solar_consumption_for_device` from `scheduler.py`. -/
def solarConsumptionForDevice (device : DeviceScheduleRequest) (slot_start current_slot_start : ℚ) : ℚ :=
  if slot_start = current_slot_start then effectiveUsageW device else device.peak_usage_w

/-- The in-place mutation pattern
`info.remaining_solar_w = max(0.0, info.remaining_solar_w - consumption)`
applied to the slot keyed `t` of the pool. -/
def deductSolar (pool : Pool) (t : ℚ) (consumption : ℚ) : Pool :=
  pool.map (fun s =>
    if s.start_time = t then
      { s with remaining_solar_w := max 0 (s.remaining_solar_w - consumption) }
    else s)

/-- The slot stored under key `t` (`slot_info[st]`; the default is never
reached when `t` is a key of the pool). -/
def slotAt (pool : Pool) (t : ℚ) : SlotInfo :=
  (pool.find? (fun s => s.start_time == t)).getD default

/-! ### Phase 1: deadline forcing (`_apply_deadline_forced`) -/

/-- The inner `for st in eligible` loop of `_apply_deadline_forced`. -/
def forceAssignSlots (device : DeviceScheduleRequest) (current_slot_start : ℚ) :
    List ℚ → DeviceState × Pool → DeviceState × Pool
  | [], dp => dp
  | st :: rest, dp =>
    if st ∈ dp.1.assigned_slots then forceAssignSlots device current_slot_start rest dp
    else
      forceAssignSlots device current_slot_start rest
        ({ dp.1 with
            assigned_slots := dp.1.assigned_slots ++ [st]
            remaining_needed := dp.1.remaining_needed - 1 },
         deductSolar dp.2 st (solarConsumptionForDevice device st current_slot_start))

/-- `_apply_deadline_forced` from `scheduler.py`. -/
def applyDeadlineForced (now current_slot_start : ℚ) :
    List DeviceScheduleRequest → States × Pool → States × Pool
  | [], sp => sp
  | device :: rest, sp =>
    let eligible := getEligibleSlots sp.2 now device.deadline
    applyDeadlineForced now current_slot_start rest
      (if eligible.isEmpty then sp
       else
        let state := sp.1 device.subentry_id
        if state.remaining_needed < eligible.length then sp
        else
          let dp := forceAssignSlots device current_slot_start eligible
            ({ state with forced_on := true }, sp.2)
          (updateState sp.1 device.subentry_id dp.1, dp.2))

/-! ### Phase 2: global greedy assignment
(`_find_cheapest_assignment`, `_apply_cost_optimal`) -/

/-- The comparison
`cost < best_cost or (cost == best_cost and best_device is not None and
device.priority < best_device.priority)` with `best_cost` initially infinite. -/
def betterPair (cost : ℚ) (device : DeviceScheduleRequest)
    (best : Option (ℚ × DeviceScheduleRequest × ℚ)) : Bool :=
  match best with
  | none => true
  | some (best_cost, best_device, _) =>
    decide (cost < best_cost) ||
      (decide (cost = best_cost) && decide (device.priority < best_device.priority))

/-- The inner `for st in eligible` scan of `_find_cheapest_assignment`. -/
def scanEligible (device : DeviceScheduleRequest) (assigned : List ℚ) (pool : Pool) :
    List ℚ → Option (ℚ × DeviceScheduleRequest × ℚ) → Option (ℚ × DeviceScheduleRequest × ℚ)
  | [], best => best
  | st :: rest, best =>
    if st ∈ assigned then scanEligible device assigned pool rest best
    else
      let cost := costForDeviceInSlot (slotAt pool st) device.peak_usage_w
      scanEligible device assigned pool rest
        (if betterPair cost device best then some (cost, device, st) else best)

/-- The outer `for device in active_devices` scan of
`_find_cheapest_assignment`. -/
def scanDevices (states : States) (pool : Pool) (now : ℚ) :
    List DeviceScheduleRequest → Option (ℚ × DeviceScheduleRequest × ℚ) →
    Option (ℚ × DeviceScheduleRequest × ℚ)
  | [], best => best
  | device :: rest, best =>
    let state := states device.subentry_id
    scanDevices states pool now rest
      (if state.remaining_needed = 0 then best
       else scanEligible device state.assigned_slots pool
        (getEligibleSlots pool now device.deadline) best)

/-- `_find_cheapest_assignment` from `scheduler.py`. -/
def findCheapestAssignment (active_devices : List DeviceScheduleRequest)
    (states : States) (pool : Pool) (now : ℚ) :
    Option (DeviceScheduleRequest × ℚ) :=
  (scanDevices states pool now active_devices none).map (fun b => (b.2.1, b.2.2))

/-- One committed assignment of the phase-2 loop body. -/
def commitAssignment (sp : States × Pool) (device : DeviceScheduleRequest)
    (slot_time current_slot_start : ℚ) : States × Pool :=
  let state := sp.1 device.subentry_id
  let state2 := { state with
    assigned_slots := state.assigned_slots ++ [slot_time]
    remaining_needed := state.remaining_needed - 1 }
  (updateState sp.1 device.subentry_id state2,
   deductSolar sp.2 slot_time (solarConsumptionForDevice device slot_time current_slot_start))

/-- The `while True` loop of `_apply_cost_optimal`, with explicit fuel.
`applyCostOptimal` supplies enough fuel for the loop to run until
`findCheapestAssignment` returns nothing (see `applyCostOptimalFuel_congr`). -/
def applyCostOptimalFuel (active_devices : List DeviceScheduleRequest)
    (now current_slot_start : ℚ) : ℕ → States × Pool → States × Pool
  | 0, sp => sp
  | n + 1, sp =>
    match findCheapestAssignment active_devices sp.1 sp.2 now with
    | none => sp
    | some (device, slot_time) =>
      applyCostOptimalFuel active_devices now current_slot_start n
        (commitAssignment sp device slot_time current_slot_start)

/-- Total remaining need across the pass — the loop variant of phase 2. -/
def stateMeasure (active_devices : List DeviceScheduleRequest) (states : States) : ℕ :=
  (active_devices.map (fun d => (states d.subentry_id).remaining_needed)).sum

/-- `_apply_cost_optimal` from `scheduler.py`. -/
def applyCostOptimal (active_devices : List DeviceScheduleRequest)
    (now current_slot_start : ℚ) (sp : States × Pool) : States × Pool :=
  applyCostOptimalFuel active_devices now current_slot_start
    (stateMeasure active_devices sp.1) sp

/-! ### Results (`_build_result`, `_determine_reason`) -/

/-- `_determine_reason` from `scheduler.py`. -/
def determineReason (should_be_on deadline_pressure has_remaining_runtime solar_powered : Bool) :
    String :=
  if should_be_on && deadline_pressure then "Forced on: deadline pressure"
  else if should_be_on && solar_powered then "Scheduled: solar surplus available"
  else if should_be_on then "Scheduled: optimal price slot"
  else if has_remaining_runtime then "Waiting for cheaper slot"
  else "Daily runtime met"

/-- `_build_result` from `scheduler.py`. -/
def buildResult (device : DeviceScheduleRequest) (state : DeviceState)
    (pool : Pool) (current_slot_start : ℚ) : ScheduleResult :=
  let slots := state.assigned_slots |> listSort (fun a b => decide (a ≤ b))
  let should_be_on := decide (current_slot_start ∈ slots)
  let solar_powered :=
    should_be_on &&
      (match pool.find? (fun s => s.start_time == current_slot_start) with
       | some s => decide (device.peak_usage_w ≤ s.solar_surplus_w)
       | none => false)
  let reason :=
    if state.forced_on && should_be_on then "Forced on: deadline pressure"
    else
      determineReason should_be_on false
        (decide (0 < remainingRuntimeMin device)) solar_powered
  { subentry_id := device.subentry_id
    should_be_on := should_be_on
    remaining_runtime_min := remainingRuntimeMin device
    scheduled_slots := slots
    reason := reason }

/-- The `states[device.subentry_id] = _DeviceState(...)` initialisation loop
of `compute_schedules`. -/
def initStates : List DeviceScheduleRequest → States → States
  | [], st => st
  | d :: ds, st =>
    initStates ds (updateState st d.subentry_id { remaining_needed := remainingSlotsNeeded d })

/-- `_compute_schedules_with_slot_info` from `scheduler.py` (the results dict
is an association list in insertion order; `compute_schedules` shares this
body after building the pool). -/
def computeSchedulesWithSlotInfo (devices : List DeviceScheduleRequest)
    (slot_info : Pool) (now : ℚ) : List (String × ScheduleResult) × Pool :=
  let current_slot_start := getCurrentSlotStart now
  let inactiveResults :=
    (devices.filter (fun d => decide (remainingRuntimeMin d ≤ 0))).map
      (fun d =>
        (d.subentry_id,
         { subentry_id := d.subentry_id
           should_be_on := false
           remaining_runtime_min := 0
           scheduled_slots := []
           reason := "Daily runtime already met" : ScheduleResult }))
  let active_devices := devices.filter (fun d => decide (0 < remainingRuntimeMin d))
  if active_devices.isEmpty then (inactiveResults, slot_info)
  else
    let states0 : States := initStates active_devices (fun _ => default)
    let sorted_devices := listSort (fun a b => decide (a.priority ≤ b.priority)) active_devices
    let sp1 := applyDeadlineForced now current_slot_start sorted_devices (states0, slot_info)
    let sp2 := applyCostOptimal sorted_devices now current_slot_start sp1
    let activeResults := sorted_devices.map
      (fun d => (d.subentry_id, buildResult d (sp2.1 d.subentry_id) sp2.2 current_slot_start))
    (inactiveResults ++ activeResults, sp2.2)

/-- `compute_schedules` from `scheduler.py`: build the pool, then run the
same body as `_compute_schedules_with_slot_info`. -/
def computeSchedules (devices : List DeviceScheduleRequest) (price_slots : List PriceSlot)
    (solar_by_hour : List (ℚ × ℚ)) (home_consumption_w : ℚ) (now : ℚ)
    (live_solar_surplus_w : Option ℚ) : List (String × ScheduleResult) × Pool :=
  computeSchedulesWithSlotInfo devices
    (buildSlotInfo price_slots solar_by_hour home_consumption_w now live_solar_surplus_w) now

/-! ### Thermostat decision engine -/

/-- `ThermostatScheduleRequest` from `scheduler.py`. -/
structure ThermostatScheduleRequest where
  subentry_id : String
  name : String
  switch_entity : String
  power_sensor : String
  temperature_sensor : String
  peak_usage_w : ℚ
  target_temp_low : ℚ
  target_temp_high : ℚ
  priority : ℤ
  min_cycle_time_min : ℚ := 5
  hvac_mode : String := "heat"
  learned_avg_power_w : Option ℚ := none
  wh_per_degree : Option ℚ := none
  current_temperature : Option ℚ := none
  is_on : Bool := false
  actual_usage_w : Option ℚ := none
deriving Repr, DecidableEq

/-- `ThermostatScheduleRequest.effective_power_w`. -/
def effectivePowerW (t : ThermostatScheduleRequest) : ℚ :=
  match t.learned_avg_power_w with
  | some l => l
  | none => t.peak_usage_w

/-- `ThermostatScheduleRequest.lower_bound`. -/
def lowerBound (t : ThermostatScheduleRequest) : ℚ := t.target_temp_low

/-- `ThermostatScheduleRequest.upper_bound`. -/
def upperBound (t : ThermostatScheduleRequest) : ℚ := t.target_temp_high

/-- `ThermostatScheduleRequest.temp_urgency`. -/
def tempUrgency (t : ThermostatScheduleRequest) : ℚ :=
  match t.current_temperature with
  | none => 1 / 2
  | some temp =>
    let margin_range := upperBound t - lowerBound t
    if margin_range ≤ 0 then 1 / 2
    else max 0 (min 1 ((upperBound t - temp) / margin_range))

/-- `_THERMOSTAT_LOOKAHEAD_SLOTS`. -/
def THERMOSTAT_LOOKAHEAD_SLOTS : ℕ := 8

/-- `_SOLAR_WAIT_URGENCY_THRESHOLD`. -/
def SOLAR_WAIT_URGENCY_THRESHOLD : ℚ := 6 / 10

/-- `_URGENCY_FALLBACK_THRESHOLD`. -/
def URGENCY_FALLBACK_THRESHOLD : ℚ := 5 / 10

/-- `_HEADROOM_COAST_HOURS`. -/
def HEADROOM_COAST_HOURS : ℚ := 2

/-- `_HEADROOM_URGENT_HOURS`. -/
def HEADROOM_URGENT_HOURS : ℚ := 5 / 10

/-- `_percentile_rank` from `scheduler.py`. -/
def percentileRank (value : ℚ) (values : List ℚ) : ℚ :=
  if values.isEmpty then 1 / 2
  else (values.countP (fun v => decide (v < value)) : ℚ) / (values.length : ℚ)

/-- `_solar_coming_soon` from `scheduler.py` (default `max_slots_ahead = 3`). -/
def solarComingSoon (upcoming_slots : List SlotInfo) (device_peak_w : ℚ)
    (max_slots_ahead : ℕ := 3) : Bool :=
  (upcoming_slots.take max_slots_ahead).any
    (fun slot => decide (device_peak_w ≤ slot.remaining_solar_w))

/-- `_check_thermal_headroom` from `scheduler.py`. -/
def checkThermalHeadroom (thermostat : ThermostatScheduleRequest)
    (upcoming_prices : List ℚ) (upcoming_slots : List SlotInfo)
    (slot_info : Pool) (current_slot_start : ℚ) : Option ScheduleResult :=
  match thermostat.wh_per_degree, thermostat.current_temperature with
  | some wh_per_degree, some current_temperature =>
    let power_w := effectivePowerW thermostat
    if power_w ≤ 0 then none
    else
      let degrees_above_lower := current_temperature - lowerBound thermostat
      if degrees_above_lower ≤ 0 then none
      else
        let coast_time_hours := degrees_above_lower * wh_per_degree / power_w
        let coast_result :=
          if HEADROOM_COAST_HOURS < coast_time_hours ∧ ¬ upcoming_prices.isEmpty then
            let coast_slots := (⌊coast_time_hours * 60 / SLOT_DURATION_MIN⌋).toNat
            let reachable := upcoming_slots.take coast_slots
            match slot_info.find? (fun s => s.start_time == current_slot_start) with
            | some current =>
              if reachable.any (fun s => decide (s.price < current.price)) then
                some { subentry_id := thermostat.subentry_id
                       should_be_on := false
                       remaining_runtime_min := 0
                       scheduled_slots := []
                       reason := "Coasting: thermal headroom, cheaper slot available" }
              else none
            | none => none
          else none
        match coast_result with
        | some r => some r
        | none =>
          if coast_time_hours < HEADROOM_URGENT_HOURS then
            match slot_info.find? (fun s => s.start_time == current_slot_start) with
            | some _ =>
              some { subentry_id := thermostat.subentry_id
                     should_be_on := true
                     remaining_runtime_min := 0
                     scheduled_slots := [current_slot_start]
                     reason := "Heating: low thermal headroom" }
            | none => none
          else none
  | _, _ => none

/-- `_decide_thermostat_optimized` from `scheduler.py`. -/
def decideThermostatOptimized (thermostat : ThermostatScheduleRequest)
    (current_slot : Option SlotInfo) (upcoming_prices : List ℚ)
    (upcoming_slots : List SlotInfo) (slot_info : Pool) (current_slot_start : ℚ) :
    ScheduleResult :=
  let urgency := tempUrgency thermostat
  let power_w := effectivePowerW thermostat
  let has_solar :=
    match current_slot with
    | some s => decide (power_w ≤ s.remaining_solar_w)
    | none => false
  if has_solar then
    { subentry_id := thermostat.subentry_id
      should_be_on := true
      remaining_runtime_min := 0
      scheduled_slots := [current_slot_start]
      reason := "Heating: solar surplus available" }
  else if urgency < SOLAR_WAIT_URGENCY_THRESHOLD ∧ solarComingSoon upcoming_slots power_w then
    { subentry_id := thermostat.subentry_id
      should_be_on := false
      remaining_runtime_min := 0
      scheduled_slots := []
      reason := "Coasting: solar surplus expected soon" }
  else
    match checkThermalHeadroom thermostat upcoming_prices upcoming_slots slot_info
        current_slot_start with
    | some headroom_result => headroom_result
    | none =>
      match current_slot with
      | some cs =>
        if upcoming_prices.isEmpty then
          let should_heat := decide (URGENCY_FALLBACK_THRESHOLD < urgency)
          { subentry_id := thermostat.subentry_id
            should_be_on := should_heat
            remaining_runtime_min := 0
            scheduled_slots := if should_heat then [current_slot_start] else []
            reason := if should_heat then "Heating: no price data, urgency-based fallback"
                      else "Coasting: no price data, urgency-based fallback" }
        else
          let price_rank := percentileRank cs.price upcoming_prices
          if price_rank ≤ urgency then
            { subentry_id := thermostat.subentry_id
              should_be_on := true
              remaining_runtime_min := 0
              scheduled_slots := [current_slot_start]
              reason := "Heating: cheap price" }
          else
            { subentry_id := thermostat.subentry_id
              should_be_on := false
              remaining_runtime_min := 0
              scheduled_slots := []
              reason := "Coasting: waiting for cheaper slot" }
      | none =>
        let should_heat := decide (URGENCY_FALLBACK_THRESHOLD < urgency)
        { subentry_id := thermostat.subentry_id
          should_be_on := should_heat
          remaining_runtime_min := 0
          scheduled_slots := if should_heat then [current_slot_start] else []
          reason := if should_heat then "Heating: no price data, urgency-based fallback"
                    else "Coasting: no price data, urgency-based fallback" }

/-- `_decide_thermostat` from `scheduler.py`. -/
def decideThermostat (thermostat : ThermostatScheduleRequest)
    (current_slot : Option SlotInfo) (upcoming_prices : List ℚ)
    (upcoming_slots : List SlotInfo) (slot_info : Pool) (current_slot_start : ℚ) :
    ScheduleResult :=
  if thermostat.hvac_mode = "off" then
    { subentry_id := thermostat.subentry_id
      should_be_on := false
      remaining_runtime_min := 0
      scheduled_slots := []
      reason := "Thermostat off" }
  else
    match thermostat.current_temperature with
    | none =>
      { subentry_id := thermostat.subentry_id
        should_be_on := thermostat.is_on
        remaining_runtime_min := 0
        scheduled_slots := if thermostat.is_on then [current_slot_start] else []
        reason := "No temperature reading, holding current state" }
    | some temp =>
      if temp ≤ lowerBound thermostat then
        { subentry_id := thermostat.subentry_id
          should_be_on := true
          remaining_runtime_min := 0
          scheduled_slots := [current_slot_start]
          reason := "Forced on: temperature at or below minimum" }
      else if upperBound thermostat ≤ temp then
        { subentry_id := thermostat.subentry_id
          should_be_on := false
          remaining_runtime_min := 0
          scheduled_slots := []
          reason := "Forced off: temperature at or above maximum" }
      else
        decideThermostatOptimized thermostat current_slot upcoming_prices upcoming_slots
          slot_info current_slot_start

/-- The Python truthiness fallback `thermostat.actual_usage_w or
thermostat.effective_power_w`: a `None` or `0.0` live reading falls back to
the effective power. -/
def thermostatConsumption (thermostat : ThermostatScheduleRequest) : ℚ :=
  match thermostat.actual_usage_w with
  | some a => if a = 0 then effectivePowerW thermostat else a
  | none => effectivePowerW thermostat

/-- The per-thermostat loop of `compute_thermostat_decisions`: decide, then
deduct solar from the current slot when heating.  The current slot is
re-read from the pool each iteration because the Python loop holds a live
reference to the mutated `_SlotInfo` object. -/
def thermoLoop (upcoming_prices : List ℚ) (upcoming_slots : List SlotInfo)
    (current_slot_start : ℚ) :
    List ThermostatScheduleRequest → List (String × ScheduleResult) × Pool →
    List (String × ScheduleResult) × Pool
  | [], rp => rp
  | thermostat :: rest, rp =>
    let current_slot := rp.2.find? (fun s => s.start_time == current_slot_start)
    let result := decideThermostat thermostat current_slot upcoming_prices upcoming_slots
      rp.2 current_slot_start
    let pool2 :=
      if result.should_be_on && (rp.2.any (fun s => s.start_time == current_slot_start)) then
        deductSolar rp.2 current_slot_start (thermostatConsumption thermostat)
      else rp.2
    thermoLoop upcoming_prices upcoming_slots current_slot_start rest
      (rp.1 ++ [(thermostat.subentry_id, result)], pool2)

/-- `compute_thermostat_decisions` from `scheduler.py`, given the shared
(already-depleted) slot pool; returns the results and the further-depleted
pool. -/
def computeThermostatDecisionsOnPool (thermostats : List ThermostatScheduleRequest)
    (slot_info : Pool) (now : ℚ) : List (String × ScheduleResult) × Pool :=
  if thermostats.isEmpty then ([], slot_info)
  else
    let current_slot_start := getCurrentSlotStart now
    let upcoming_slots :=
      (listSort (fun a b => decide (a.start_time ≤ b.start_time))
        (slot_info.filter (fun s => decide (current_slot_start < s.start_time)))).take
        THERMOSTAT_LOOKAHEAD_SLOTS
    let upcoming_prices := upcoming_slots.map (fun s => s.price)
    let sorted_thermostats := listSort (fun a b => decide (a.priority ≤ b.priority)) thermostats
    thermoLoop upcoming_prices upcoming_slots current_slot_start sorted_thermostats
      ([], slot_info)

/-- `compute_thermostat_decisions` from `scheduler.py` (the `slot_info=None`
entry point that builds the pool first). -/
def computeThermostatDecisions (thermostats : List ThermostatScheduleRequest)
    (price_slots : List PriceSlot) (solar_by_hour : List (ℚ × ℚ))
    (home_consumption_w : ℚ) (now : ℚ) (live_solar_surplus_w : Option ℚ)
    (slot_info : Option Pool) : List (String × ScheduleResult) × Pool :=
  computeThermostatDecisionsOnPool thermostats
    (match slot_info with
     | some p => p
     | none => buildSlotInfo price_slots solar_by_hour home_consumption_w now
         live_solar_surplus_w)
    now

/-! ### Manual device ranking -/

/-- `ManualDeviceScheduleRequest` from `scheduler.py`. -/
structure ManualDeviceScheduleRequest where
  subentry_id : String
  name : String
  peak_usage_w : ℚ
  cycle_duration_min : ℚ
  priority : ℤ
  power_sensor : Option String := none
  delay_intervals_h : Option (List ℚ) := none
  avg_usage_w : Option ℚ := none
deriving Repr, DecidableEq

/-- `ManualDeviceWindow` from `scheduler.py`. -/
structure ManualDeviceWindow where
  start_time : ℚ
  end_time : ℚ
  total_cost : ℚ
  solar_fraction : ℚ
  delay_hours : Option ℚ := none
deriving Repr, DecidableEq

/-- `ManualDeviceRanking` from `scheduler.py`. -/
structure ManualDeviceRanking where
  subentry_id : String
  windows : List ManualDeviceWindow
  recommended_start : Option ℚ
  recommended_end : Option ℚ
deriving Repr, DecidableEq

/-- `_empty_ranking` from `scheduler.py`. -/
def emptyRanking (subentry_id : String) : ManualDeviceRanking :=
  { subentry_id := subentry_id
    windows := []
    recommended_start := none
    recommended_end := none }

/-- `_is_contiguous` from `scheduler.py`. -/
def isContiguous : List ℚ → Bool
  | [] => true
  | [_] => true
  | a :: b :: rest => decide (b - a = slotDurS) && isContiguous (b :: rest)

/-- The Python truthiness fallback `avg_usage_w or peak_usage_w` used by
`_score_window`. -/
def avgOrPeak (avg_usage_w : Option ℚ) (peak_usage_w : ℚ) : ℚ :=
  match avg_usage_w with
  | some a => if a = 0 then peak_usage_w else a
  | none => peak_usage_w

/-- `_score_window` from `scheduler.py` — returns `(total_cost, solar_fraction)`. -/
def scoreWindow (window_slots : List ℚ) (slot_info : Pool) (peak_usage_w : ℚ)
    (avg_usage_w : Option ℚ) : ℚ × ℚ :=
  let total_cost := (window_slots.map
    (fun st => costForDeviceInSlot (slotAt slot_info st) (avgOrPeak avg_usage_w peak_usage_w))).sum
  let solar_count := window_slots.countP
    (fun st => decide (peak_usage_w ≤ (slotAt slot_info st).remaining_solar_w))
  let solar_fraction :=
    if window_slots.isEmpty then 0 else (solar_count : ℚ) / (window_slots.length : ℚ)
  (total_cost, solar_fraction)

/-- `_rank_all_contiguous_windows` from `scheduler.py`. -/
def rankAllContiguousWindows (request : ManualDeviceScheduleRequest) (slot_info : Pool)
    (eligible : List ℚ) (slots_needed : ℕ) : List ManualDeviceWindow :=
  ((List.range (eligible.length + 1 - slots_needed)).filterMap
    (fun i =>
      let window_slots := (eligible.drop i).take slots_needed
      if isContiguous window_slots then
        let sc := scoreWindow window_slots slot_info request.peak_usage_w request.avg_usage_w
        match window_slots.head?, window_slots.getLast? with
        | some first, some last =>
          some { start_time := first
                 end_time := last + slotDurS
                 total_cost := sc.1
                 solar_fraction := sc.2 }
        | _, _ => none
      else none))

/-- The candidate window for one delay offset inside
`_rank_delay_interval_windows`; `none` when the window runs past the price
horizon or a required slot is missing. -/
def delayWindowForOffset (request : ManualDeviceScheduleRequest) (slot_info : Pool)
    (eligible : List ℚ) (slots_needed : ℕ) (now : ℚ) (delay_h : ℚ) :
    Option ManualDeviceWindow :=
  let target_start := now + 3600 * delay_h
  let snapped := snapToSlot target_start
  let window_slots := (List.range slots_needed).map
    (fun k : ℕ => snapped + slotDurS * (k : ℚ))
  let last_eligible := eligible.getLastD now
  match window_slots.getLast? with
  | none => none
  | some last =>
    if last_eligible < last then none
    else if window_slots.all (fun st => eligible.contains st) then
      let sc := scoreWindow window_slots slot_info request.peak_usage_w request.avg_usage_w
      some { start_time := snapped
             end_time := last + slotDurS
             total_cost := sc.1
             solar_fraction := sc.2
             delay_hours := some delay_h }
    else none

/-- `_rank_delay_interval_windows` from `scheduler.py`. -/
def rankDelayIntervalWindows (request : ManualDeviceScheduleRequest) (slot_info : Pool)
    (eligible : List ℚ) (slots_needed : ℕ) (now : ℚ) : List ManualDeviceWindow :=
  ((request.delay_intervals_h.getD []) |> listSort (fun a b => decide (a ≤ b))).filterMap
    (delayWindowForOffset request slot_info eligible slots_needed now)

/-- The sort key ordering of `windows.sort(key=lambda w: (w.total_cost,
-w.solar_fraction))`: ascending cost, then descending solar fraction. -/
def windowSortLe (a b : ManualDeviceWindow) : Bool :=
  decide (a.total_cost < b.total_cost) ||
    (decide (a.total_cost = b.total_cost) && decide (b.solar_fraction ≤ a.solar_fraction))

/-- `compute_manual_device_rankings` from `scheduler.py`. -/
def computeManualDeviceRankings (request : ManualDeviceScheduleRequest)
    (slot_info : Pool) (now : ℚ) : ManualDeviceRanking :=
  let slots_needed := (⌈request.cycle_duration_min / SLOT_DURATION_MIN⌉).toNat
  if slots_needed = 0 then emptyRanking request.subentry_id
  else
    let tomorrow6 := dayStart now + 86400 + 3600 * 6
    let today6 := dayStart now + 3600 * 6
    let cutoff := if now < today6 then today6 else tomorrow6
    let eligible :=
      ((slot_info.filter
          (fun s => decide (now < s.start_time + slotDurS) && decide (s.start_time < cutoff))).map
        (fun s => s.start_time)) |> listSort (fun a b => decide (a ≤ b))
    if eligible.isEmpty then emptyRanking request.subentry_id
    else
      let windows :=
        match request.delay_intervals_h with
        | some (_ :: _) =>
          rankDelayIntervalWindows request slot_info eligible slots_needed now
        | _ =>
          rankAllContiguousWindows request slot_info eligible slots_needed
      let sorted_windows := listSort windowSortLe windows
      { subentry_id := request.subentry_id
        windows := sorted_windows
        recommended_start := (sorted_windows.head?).map (fun w => w.start_time)
        recommended_end := (sorted_windows.head?).map (fun w => w.end_time) }

/-! ### Reservation integrator (`apply_reservations_to_slot_info`) -/

/-- `apply_reservations_to_slot_info` from `scheduler.py`; a reservation is
`(subentry_id, reserved_start, reserved_end)`. -/
def applyReservationsToSlotInfo (slot_info : Pool)
    (reservations : List (String × ℚ × ℚ))
    (manual_requests : List ManualDeviceScheduleRequest) : Pool :=
  match reservations with
  | [] => slot_info
  | r :: rest =>
    applyReservationsToSlotInfo
      (match manual_requests.find? (fun q => q.subentry_id == r.1) with
       | none => slot_info
       | some req =>
         slot_info.map (fun slot =>
           if r.2.1 ≤ slot.start_time ∧ slot.start_time + slotDurS ≤ r.2.2 then
             { slot with remaining_solar_w := max 0 (slot.remaining_solar_w - req.peak_usage_w) }
           else slot))
      rest manual_requests

/-! ### Definitions modelled from the specification's wording
(used only to state refuted claims precisely) -/

/-- Modelled from the spec: "snapped to the nearest slot boundary" — the
multiple of the slot duration closest to `t` (the code instead snaps
*down*; see claim C7). -/
def nearestSlotBoundary (t : ℚ) : ℚ := slotDurS * (round (t / slotDurS) : ℤ)

/-- Modelled from the spec: a per-slot cost in which "the solar-coverage
comparison still uses peak" while the partial-solar fraction weighting may
use the average wattage (see claim C8; the code instead passes
`avg or peak` into the whole of `_cost_for_device_in_slot`). -/
def c8ClaimSlotCost (slot : SlotInfo) (peak_usage_w : ℚ) (avg_usage_w : Option ℚ) : ℚ :=
  let w := avgOrPeak avg_usage_w peak_usage_w
  if peak_usage_w ≤ slot.remaining_solar_w then
    if 0 < slot.energy_price then -slot.energy_price else -1
  else if 0 < slot.remaining_solar_w then
    let solar_fraction := slot.remaining_solar_w / w
    let grid_cost := slot.price * (1 - solar_fraction)
    if 0 < slot.energy_price then grid_cost - slot.energy_price * solar_fraction else grid_cost
  else
    slot.price

/-! ### Invariant vocabulary for the depletion claims -/

/-- A slot as produced by the pool builder: the depleting counter starts
equal to the (non-negative) surplus. -/
def slotFresh (s : SlotInfo) : Prop :=
  s.remaining_solar_w = s.solar_surplus_w ∧ 0 ≤ s.solar_surplus_w

/-- All fields other than the depleting counter are unchanged. -/
def sameStatic (a b : SlotInfo) : Prop :=
  b.start_time = a.start_time ∧ b.price = a.price ∧ b.energy_price = a.energy_price ∧
  b.solar_production_w = a.solar_production_w ∧ b.solar_surplus_w = a.solar_surplus_w

/-- Evolution of one slot within a pass: static fields unchanged, and from a
non-negative counter the counter never increases and never goes negative. -/
def slotDepletes (a b : SlotInfo) : Prop :=
  sameStatic a b ∧
    (0 ≤ a.remaining_solar_w →
      b.remaining_solar_w ≤ a.remaining_solar_w ∧ 0 ≤ b.remaining_solar_w)

/-- Pool-wide depletion: the pools have the same slots in the same order and
every slot only depletes. -/
def Depletes (p q : Pool) : Prop := List.Forall₂ slotDepletes p q

/-- The §3 invariant: `0 ≤ remaining_solar_w ≤ solar_surplus_w`. -/
def PoolInv (p : Pool) : Prop :=
  ∀ s ∈ p, 0 ≤ s.remaining_solar_w ∧ s.remaining_solar_w ≤ s.solar_surplus_w

/-- The key set of the slot dictionary (insertion order). -/
def poolKeys (p : Pool) : List ℚ := p.map (fun s => s.start_time)

/-! ## Properties of the stable sort -/

/-- Inserting an element permutes to consing it. -/
theorem insertSorted_perm (le : α → α → Bool) (a : α) (l : List α) :
    (insertSorted le a l).Perm (a :: l) := by
  induction l with
  | nil => exact List.Perm.refl _
  | cons b l ih =>
    unfold insertSorted
    split
    · exact List.Perm.refl _
    · exact (List.Perm.cons b ih).trans (List.Perm.swap a b l)

/-- The sorting fold permutes to appending the input to the accumulator. -/
theorem foldl_insertSorted_perm (le : α → α → Bool) :
    ∀ (l acc : List α),
      (l.foldl (fun acc a => insertSorted le a acc) acc).Perm (acc ++ l)
  | [], acc => by simp
  | a :: l, acc => by
    refine (foldl_insertSorted_perm le l (insertSorted le a acc)).trans ?_
    exact ((insertSorted_perm le a acc).append_right l).trans List.perm_middle.symm

/-- `listSort` permutes its input. -/
theorem listSort_perm (le : α → α → Bool) (l : List α) : (listSort le l).Perm l := by
  simpa [listSort] using foldl_insertSorted_perm le l []

/-- Membership is preserved by `listSort`. -/
theorem mem_listSort {le : α → α → Bool} {l : List α} {a : α} :
    a ∈ listSort le l ↔ a ∈ l :=
  (listSort_perm le l).mem_iff

/-- Length is preserved by `listSort`. -/
theorem length_listSort (le : α → α → Bool) (l : List α) :
    (listSort le l).length = l.length :=
  (listSort_perm le l).length_eq

/-- `Nodup` is preserved by `listSort`. -/
theorem nodup_listSort {le : α → α → Bool} {l : List α} (h : l.Nodup) :
    (listSort le l).Nodup :=
  ((listSort_perm le l).nodup_iff).mpr h

/-- Inserting into a sorted list keeps it sorted, given a total transitive
comparison. -/
theorem pairwise_insertSorted (le : α → α → Bool)
    (htot : ∀ a b, le a b = true ∨ le b a = true)
    (htrans : ∀ a b c, le a b = true → le b c = true → le a c = true)
    (a : α) (l : List α) (h : l.Pairwise (fun x y => le x y = true)) :
    (insertSorted le a l).Pairwise (fun x y => le x y = true) := by
  induction l with
  | nil => simp [insertSorted]
  | cons b l ih =>
    rw [List.pairwise_cons] at h
    unfold insertSorted
    by_cases hc : (le a b && !le b a) = true
    · rw [if_pos hc]
      simp only [Bool.and_eq_true, Bool.not_eq_true'] at hc
      refine List.Pairwise.cons ?_ (List.Pairwise.cons h.1 h.2)
      intro x hx
      rcases List.mem_cons.mp hx with rfl | hx
      · exact hc.1
      · exact htrans a b x hc.1 (h.1 x hx)
    · rw [if_neg hc]
      refine List.Pairwise.cons ?_ (ih h.2)
      intro x hx
      rcases List.mem_cons.mp ((insertSorted_perm le a l).mem_iff.mp hx) with rfl | hx
      · simp only [Bool.and_eq_true, Bool.not_eq_true', not_and] at hc
        by_cases hbx : le b x = true
        · exact hbx
        · have hxb : le x b = true := (htot x b).resolve_right hbx
          cases hb : le b x with
          | false => exact absurd hb (hc hxb)
          | true => exact absurd hb hbx
      · exact h.1 x hx

/-- The sorting fold yields a sorted list from a sorted accumulator. -/
theorem pairwise_foldl_insertSorted (le : α → α → Bool)
    (htot : ∀ a b, le a b = true ∨ le b a = true)
    (htrans : ∀ a b c, le a b = true → le b c = true → le a c = true) :
    ∀ (l acc : List α), acc.Pairwise (fun x y => le x y = true) →
      (l.foldl (fun acc a => insertSorted le a acc) acc).Pairwise
        (fun x y => le x y = true)
  | [], _, h => h
  | a :: l, acc, h =>
    pairwise_foldl_insertSorted le htot htrans l (insertSorted le a acc)
      (pairwise_insertSorted le htot htrans a acc h)

/-- `listSort` sorts, for a total transitive comparison. -/
theorem pairwise_listSort (le : α → α → Bool)
    (htot : ∀ a b, le a b = true ∨ le b a = true)
    (htrans : ∀ a b c, le a b = true → le b c = true → le a c = true)
    (l : List α) :
    (listSort le l).Pairwise (fun x y => le x y = true) :=
  pairwise_foldl_insertSorted le htot htrans l [] List.Pairwise.nil

/-- Inserting an element that dominates the whole list appends it. -/
theorem insertSorted_eq_append (le : α → α → Bool) (a : α) (l : List α)
    (h : ∀ b ∈ l, le b a = true) : insertSorted le a l = l ++ [a] := by
  induction l with
  | nil => rfl
  | cons b l ih =>
    unfold insertSorted
    rw [if_neg (by simp [h b (List.mem_cons_self b l)]), ih
      (fun x hx => h x (List.mem_cons_of_mem b hx))]
    rfl

/-- The sorting fold leaves an already-sorted input in place. -/
theorem foldl_insertSorted_of_sorted (le : α → α → Bool) :
    ∀ (l acc : List α), l.Pairwise (fun x y => le x y = true) →
      (∀ b ∈ acc, ∀ x ∈ l, le b x = true) →
      l.foldl (fun acc a => insertSorted le a acc) acc = acc ++ l
  | [], acc, _, _ => by simp
  | a :: l, acc, h, hacc => by
    rw [List.pairwise_cons] at h
    have h1 : insertSorted le a acc = acc ++ [a] :=
      insertSorted_eq_append le a acc
        (fun b hb => hacc b hb a (List.mem_cons_self a l))
    show List.foldl _ (insertSorted le a acc) l = _
    rw [h1, foldl_insertSorted_of_sorted le l (acc ++ [a]) h.2 ?hdom]
    · simp
    case hdom =>
      intro b hb x hx
      rcases List.mem_append.mp hb with hb | hb
      · exact hacc b hb x (List.mem_cons_of_mem a hx)
      · rw [List.mem_singleton.mp hb]
        exact h.1 x hx

/-- `listSort` is the identity on sorted input. -/
theorem listSort_of_pairwise (le : α → α → Bool) (l : List α)
    (h : l.Pairwise (fun x y => le x y = true)) : listSort le l = l := by
  simpa [listSort] using foldl_insertSorted_of_sorted le l [] h (by simp)

/-! ## Claims -/

/-! ### C1: the marginal cost function -/

/-- C1 (counterexample): the claim states that whenever `remaining_solar_w`
is `0` the cost equals `price`.  For a device wattage `W = 0` the code takes
the fully-solar-covered branch (`remaining_solar_w >= W` holds as `0 >= 0`)
and returns the export bonus `-1.0`, not the price.  Witnessed at a slot
with price 5, export price 0, no solar. -/
theorem claim_C1_counterexample :
    (let s : SlotInfo :=
      { start_time := 0, price := 5, energy_price := 0, solar_production_w := 0,
        solar_surplus_w := 0, remaining_solar_w := 0 }
     s.remaining_solar_w = 0 ∧ costForDeviceInSlot s 0 = -1 ∧
       costForDeviceInSlot s 0 ≠ s.price) := by
  decide

/-- C1 (amended): the marginal cost function behaves as claimed, except that
the `remaining_solar_w = 0 → cost = price` clause additionally requires a
positive device wattage `0 < W` (for `W ≤ 0` the fully-covered clause
applies instead, as the counterexample shows). -/
theorem claim_C1_amended (s : SlotInfo) (W : ℚ) :
    (W ≤ s.remaining_solar_w →
      costForDeviceInSlot s W = if 0 < s.energy_price then -s.energy_price else -1) ∧
    (0 < s.remaining_solar_w → s.remaining_solar_w < W →
      costForDeviceInSlot s W =
        if 0 < s.energy_price then
          s.price * (1 - s.remaining_solar_w / W) - s.energy_price * (s.remaining_solar_w / W)
        else s.price * (1 - s.remaining_solar_w / W)) ∧
    (s.remaining_solar_w = 0 → 0 < W → costForDeviceInSlot s W = s.price) := by
  unfold costForDeviceInSlot
  refine ⟨fun h => ?_, fun h1 h2 => ?_, fun h0 hW => ?_⟩
  · rw [if_pos h]
  · rw [if_neg (not_le.mpr h2), if_pos h1]
  · rw [if_neg (by rw [h0]; exact not_le.mpr hW), if_neg (by rw [h0]; exact lt_irrefl 0)]

/-- C1 (witness): the amended theorem applied at concrete slots for each of
the three clauses. -/
theorem claim_C1_amended_witness :
    costForDeviceInSlot
      { start_time := 0, price := 7, energy_price := 3, solar_production_w := 0,
        solar_surplus_w := 4, remaining_solar_w := 4 } 2 = -3 ∧
    costForDeviceInSlot
      { start_time := 0, price := 8, energy_price := 0, solar_production_w := 0,
        solar_surplus_w := 1, remaining_solar_w := 1 } 4 = 6 ∧
    costForDeviceInSlot
      { start_time := 0, price := 9, energy_price := 2, solar_production_w := 0,
        solar_surplus_w := 0, remaining_solar_w := 0 } 5 = 9 := by
  refine ⟨?_, ?_, ?_⟩
  · rw [(claim_C1_amended
      { start_time := 0, price := 7, energy_price := 3, solar_production_w := 0,
        solar_surplus_w := 4, remaining_solar_w := 4 } 2).1 (by norm_num)]
    norm_num
  · rw [(claim_C1_amended
      { start_time := 0, price := 8, energy_price := 0, solar_production_w := 0,
        solar_surplus_w := 1, remaining_solar_w := 1 } 4).2.1 (by norm_num) (by norm_num)]
    norm_num
  · rw [(claim_C1_amended
      { start_time := 0, price := 9, energy_price := 2, solar_production_w := 0,
        solar_surplus_w := 0, remaining_solar_w := 0 } 5).2.2 rfl (by norm_num)]

/-! ### C5: thermostat boundary determinism -/

/-- C5: for a thermostat whose hvac mode is not off and that has a
temperature reading, a temperature exactly at the lower bound forces
heating on, and one exactly at the upper bound forces heating off,
independent of every price and solar input (the current slot, the upcoming
prices/slots and the pool are universally quantified).  The comfort band is
non-degenerate (`lower_bound < upper_bound`), as guaranteed by the config
flow: the bounds are `target ± tolerance` with `tolerance ≥ 0.5`. -/
theorem claim_C5 (t : ThermostatScheduleRequest) (current_slot : Option SlotInfo)
    (upcoming_prices : List ℚ) (upcoming_slots : List SlotInfo) (pool : Pool)
    (current_slot_start : ℚ) (temp : ℚ)
    (hmode : t.hvac_mode ≠ "off") (htemp : t.current_temperature = some temp)
    (hband : lowerBound t < upperBound t) :
    (temp = lowerBound t →
      (decideThermostat t current_slot upcoming_prices upcoming_slots pool
        current_slot_start).should_be_on = true) ∧
    (temp = upperBound t →
      (decideThermostat t current_slot upcoming_prices upcoming_slots pool
        current_slot_start).should_be_on = false) := by
  unfold decideThermostat
  rw [if_neg hmode, htemp]
  dsimp only
  constructor
  · intro h
    rw [if_pos (le_of_eq h)]
  · intro h
    rw [if_neg (not_le.mpr (h ▸ hband)), if_pos (le_of_eq h.symm)]

/-- C5 (witness): a thermostat with band `[18.5, 21.5]`, applied at both
boundary temperatures, against a pool and price list that would otherwise
argue for the opposite decision. -/
theorem claim_C5_witness :
    (decideThermostat
      { subentry_id := "t1", name := "z", switch_entity := "sw", power_sensor := "pw",
        temperature_sensor := "ts", peak_usage_w := 500, target_temp_low := 37 / 2,
        target_temp_high := 43 / 2, priority := 1, current_temperature := some (37 / 2) }
      none [1 / 2, 2 / 5, 3 / 10, 1 / 5] [] [] 36000).should_be_on = true ∧
    (decideThermostat
      { subentry_id := "t1", name := "z", switch_entity := "sw", power_sensor := "pw",
        temperature_sensor := "ts", peak_usage_w := 500, target_temp_low := 37 / 2,
        target_temp_high := 43 / 2, priority := 1, current_temperature := some (43 / 2),
        actual_usage_w := none }
      (some { start_time := 36000, price := 0, energy_price := 0, solar_production_w := 900,
              solar_surplus_w := 900, remaining_solar_w := 900 })
      [1 / 2] [] [] 36000).should_be_on = false := by
  constructor
  · exact (claim_C5 _ none _ [] [] 36000 (37 / 2) (by decide) rfl
      (by norm_num [lowerBound, upperBound])).1 rfl
  · exact (claim_C5 _ _ _ [] [] 36000 (43 / 2) (by decide) rfl
      (by norm_num [lowerBound, upperBound])).2 rfl

/-! ### C10: thermostat solar deduction amount -/

/-- C10 (counterexample): the claim asserts the deducted amount "is never 0
for a heating thermostat with a 0 W live reading".  A thermostat with
`peak_usage_w = 0` (the config flow admits a minimum of 0 W) and no learned
average has `effective_power_w = 0`, so with a live reading of exactly 0 W
the fallback deducts 0: here the thermostat is forced on (10° ≤ 18°) yet
the current slot's `remaining_solar_w` stays 100 W. -/
theorem claim_C10_counterexample :
    (let t : ThermostatScheduleRequest :=
      { subentry_id := "t0", name := "t", switch_entity := "s", power_sensor := "p",
        temperature_sensor := "ts", peak_usage_w := 0, target_temp_low := 18,
        target_temp_high := 22, priority := 1, current_temperature := some 10,
        actual_usage_w := some 0 }
     let pool : Pool :=
       [{ start_time := 36000, price := 1, energy_price := 0,
          solar_production_w := 200, solar_surplus_w := 100, remaining_solar_w := 100 }]
     let out := computeThermostatDecisionsOnPool [t] pool 36000
     t.actual_usage_w = some 0 ∧
       out.1.map (fun r => (r.1, r.2.should_be_on)) = [("t0", true)] ∧
       thermostatConsumption t = 0 ∧
       out.2 = pool) := by
  norm_num [computeThermostatDecisionsOnPool, listSort, insertSorted, thermoLoop,
    decideThermostat, thermostatConsumption, effectivePowerW, lowerBound, upperBound,
    deductSolar, getCurrentSlotStart, snapToSlot, hourStart, minuteOf,
    THERMOSTAT_LOOKAHEAD_SLOTS, slotDurS, SLOT_DURATION_MIN]
  decide

/-- C10 (amended): when a thermostat heats, the amount deducted from the
current slot is `actual_usage_w or effective_power_w` in Python truthiness:
a non-zero live reading is used as-is; a reading of exactly 0 W or an absent
reading falls back to the effective power; and the deduction is non-zero for
a 0 W live reading provided the effective power is non-zero (the
counterexample shows the proviso is necessary). -/
theorem claim_C10_amended (t : ThermostatScheduleRequest) :
    (∀ a : ℚ, t.actual_usage_w = some a → a ≠ 0 → thermostatConsumption t = a) ∧
    (t.actual_usage_w = some 0 ∨ t.actual_usage_w = none →
      thermostatConsumption t = effectivePowerW t) ∧
    (t.actual_usage_w = some 0 → effectivePowerW t ≠ 0 → thermostatConsumption t ≠ 0) ∧
    (∀ (up : List ℚ) (ups : List SlotInfo) (cur : ℚ) (pool : Pool),
      (decideThermostat t (pool.find? (fun s => s.start_time == cur)) up ups pool
        cur).should_be_on = true →
      pool.any (fun s => s.start_time == cur) = true →
      (thermoLoop up ups cur [t] ([], pool)).2 =
        deductSolar pool cur (thermostatConsumption t)) := by
  refine ⟨fun a ha hne => ?_, fun h => ?_, fun h0 heff => ?_, fun up ups cur pool h1 h2 => ?_⟩
  · simp only [thermostatConsumption, ha]
    exact if_neg hne
  · rcases h with h | h
    · simp [thermostatConsumption, h]
    · simp [thermostatConsumption, h]
  · simp only [thermostatConsumption, h0]
    simpa using heff
  · simp only [thermoLoop, h1, h2, Bool.and_self, if_true]

/-- C10 (witness): the amended theorem at concrete thermostats — a 50 W live
reading is deducted as-is; a 0 W reading falls back to the 500 W peak; and
the one-step loop deducts exactly that amount from the current slot. -/
theorem claim_C10_amended_witness :
    thermostatConsumption
      { subentry_id := "tA", name := "t", switch_entity := "s", power_sensor := "p",
        temperature_sensor := "ts", peak_usage_w := 500, target_temp_low := 18,
        target_temp_high := 22, priority := 1, current_temperature := some 10,
        actual_usage_w := some 50 } = 50 ∧
    thermostatConsumption
      { subentry_id := "tB", name := "t", switch_entity := "s", power_sensor := "p",
        temperature_sensor := "ts", peak_usage_w := 500, target_temp_low := 18,
        target_temp_high := 22, priority := 1, current_temperature := some 10,
        actual_usage_w := some 0 } ≠ 0 ∧
    (thermoLoop [] [] 36000
      [{ subentry_id := "tB", name := "t", switch_entity := "s", power_sensor := "p",
         temperature_sensor := "ts", peak_usage_w := 500, target_temp_low := 18,
         target_temp_high := 22, priority := 1, current_temperature := some 10,
         actual_usage_w := some 0 }]
      ([], [{ start_time := 36000, price := 1, energy_price := 0,
              solar_production_w := 700, solar_surplus_w := 700,
              remaining_solar_w := 700 }])).2 =
      deductSolar
        [{ start_time := 36000, price := 1, energy_price := 0, solar_production_w := 700,
           solar_surplus_w := 700, remaining_solar_w := 700 }] 36000
        (thermostatConsumption
          { subentry_id := "tB", name := "t", switch_entity := "s", power_sensor := "p",
            temperature_sensor := "ts", peak_usage_w := 500, target_temp_low := 18,
            target_temp_high := 22, priority := 1, current_temperature := some 10,
            actual_usage_w := some 0 }) := by
  refine ⟨?_, ?_, ?_⟩
  · exact (claim_C10_amended _).1 50 rfl (by norm_num)
  · exact (claim_C10_amended _).2.2.1 rfl (by decide)
  · exact (claim_C10_amended _).2.2.2 [] [] 36000 _ (by decide) (by decide)

/-! ### C9: manual ranking is pure, sorted, and recommends its head -/

/-- The window comparison is total. -/
theorem windowSortLe_total (a b : ManualDeviceWindow) :
    windowSortLe a b = true ∨ windowSortLe b a = true := by
  simp only [windowSortLe, Bool.or_eq_true, Bool.and_eq_true, decide_eq_true_eq]
  rcases lt_trichotomy a.total_cost b.total_cost with h | h | h
  · exact Or.inl (Or.inl h)
  · rcases le_total a.solar_fraction b.solar_fraction with hf | hf
    · exact Or.inr (Or.inr ⟨h.symm, hf⟩)
    · exact Or.inl (Or.inr ⟨h, hf⟩)
  · exact Or.inr (Or.inl h)

/-- The window comparison is transitive. -/
theorem windowSortLe_trans (a b c : ManualDeviceWindow) :
    windowSortLe a b = true → windowSortLe b c = true → windowSortLe a c = true := by
  simp only [windowSortLe, Bool.or_eq_true, Bool.and_eq_true, decide_eq_true_eq]
  rintro (hab | ⟨hab, fab⟩) (hbc | ⟨hbc, fbc⟩)
  · exact Or.inl (hab.trans hbc)
  · exact Or.inl (hbc ▸ hab)
  · exact Or.inl (hab ▸ hbc)
  · exact Or.inr ⟨hab.trans hbc, fbc.trans fab⟩

/-- C9: the ranking engine is pure (its embedding takes the pool by value
and returns no modified pool, because the source performs no writes), so two
calls on identical inputs give identical rankings; the window list is sorted
by ascending total cost with descending solar fraction breaking ties; and
the recommendation is exactly the head of the sorted list. -/
theorem claim_C9 (request : ManualDeviceScheduleRequest) (pool : Pool) (now : ℚ) :
    computeManualDeviceRankings request pool now =
      computeManualDeviceRankings request pool now ∧
    (computeManualDeviceRankings request pool now).windows.Pairwise
      (fun a b => a.total_cost < b.total_cost ∨
        (a.total_cost = b.total_cost ∧ b.solar_fraction ≤ a.solar_fraction)) ∧
    (computeManualDeviceRankings request pool now).recommended_start =
      ((computeManualDeviceRankings request pool now).windows.head?).map
        (fun w => w.start_time) ∧
    (computeManualDeviceRankings request pool now).recommended_end =
      ((computeManualDeviceRankings request pool now).windows.head?).map
        (fun w => w.end_time) := by
  refine ⟨rfl, ?_, ?_, ?_⟩ <;>
    [skip;
     (unfold computeManualDeviceRankings emptyRanking; dsimp only; split_ifs <;> simp);
     (unfold computeManualDeviceRankings emptyRanking; dsimp only; split_ifs <;> simp)]
  unfold computeManualDeviceRankings emptyRanking
  dsimp only
  split_ifs
  all_goals
    first
      | exact List.Pairwise.nil
      | (refine List.Pairwise.imp ?_
          (pairwise_listSort windowSortLe windowSortLe_total windowSortLe_trans _)
         intro a b h
         simpa only [windowSortLe, Bool.or_eq_true, Bool.and_eq_true,
           decide_eq_true_eq] using h)

/-! ### C6: thermal headroom rule -/

/-- C6: in the optimize tier (band interior, hvac not off), with a learned
`wh_per_degree`, positive effective power, no current-slot solar coverage and
the solar look-ahead branch not applying, let
`coast_hours = (current_temp − lower_bound) · wh_per_degree / effective_watts`.
If `coast_hours > 2.0` and a strictly cheaper slot than the current one
exists within the first `⌊coast_hours · 4⌋` upcoming slots, the decision is
to coast; if `coast_hours < 0.5` the decision is to heat now, regardless of
prices.  The current slot is present in the pool (the code reads its price
there). -/
theorem claim_C6 (t : ThermostatScheduleRequest) (cs : SlotInfo)
    (upcoming_slots : List SlotInfo) (pool : Pool) (current_slot_start : ℚ)
    (temp w : ℚ)
    (hmode : t.hvac_mode ≠ "off")
    (htemp : t.current_temperature = some temp)
    (hlow : lowerBound t < temp) (hhigh : temp < upperBound t)
    (hw : t.wh_per_degree = some w)
    (hpow : 0 < effectivePowerW t)
    (hcs : pool.find? (fun s => s.start_time == current_slot_start) = some cs)
    (hnosolar : cs.remaining_solar_w < effectivePowerW t)
    (hnola : ¬ (tempUrgency t < SOLAR_WAIT_URGENCY_THRESHOLD ∧
      solarComingSoon upcoming_slots (effectivePowerW t) = true)) :
    (HEADROOM_COAST_HOURS < (temp - lowerBound t) * w / effectivePowerW t →
      (∃ s ∈ upcoming_slots.take
          (⌊(temp - lowerBound t) * w / effectivePowerW t * 60 / SLOT_DURATION_MIN⌋).toNat,
        s.price < cs.price) →
      (decideThermostat t (some cs) (upcoming_slots.map (fun s => s.price)) upcoming_slots
        pool current_slot_start).should_be_on = false) ∧
    ((temp - lowerBound t) * w / effectivePowerW t < HEADROOM_URGENT_HOURS →
      (decideThermostat t (some cs) (upcoming_slots.map (fun s => s.price)) upcoming_slots
        pool current_slot_start).should_be_on = true) := by
  have hopt : decideThermostat t (some cs) (upcoming_slots.map (fun s => s.price))
      upcoming_slots pool current_slot_start =
      decideThermostatOptimized t (some cs) (upcoming_slots.map (fun s => s.price))
        upcoming_slots pool current_slot_start := by
    unfold decideThermostat
    rw [if_neg hmode, htemp]
    dsimp only
    rw [if_neg (not_le.mpr hlow), if_neg (not_le.mpr hhigh)]
  have hdeg : ¬ (temp - lowerBound t ≤ 0) := not_le.mpr (sub_pos.mpr hlow)
  have hsolar : decide (effectivePowerW t ≤ cs.remaining_solar_w) = false :=
    decide_eq_false (not_le.mpr hnosolar)
  constructor
  · intro hcoast hcheap
    obtain ⟨s0, hs0, hs0p⟩ := hcheap
    have hne : upcoming_slots ≠ [] := by
      intro h
      rw [h, List.take_nil] at hs0
      exact (List.not_mem_nil s0) hs0
    have hpne : ¬ ((upcoming_slots.map (fun s => s.price)).isEmpty = true) := by
      simpa [List.isEmpty_iff] using hne
    have hhr : checkThermalHeadroom t (upcoming_slots.map (fun s => s.price))
        upcoming_slots pool current_slot_start =
        some { subentry_id := t.subentry_id
               should_be_on := false
               remaining_runtime_min := 0
               scheduled_slots := []
               reason := "Coasting: thermal headroom, cheaper slot available" } := by
      unfold checkThermalHeadroom
      rw [hw, htemp]
      dsimp only
      rw [if_neg (not_le.mpr hpow), if_neg hdeg, if_pos ⟨hcoast, hpne⟩, hcs]
      dsimp only
      rw [if_pos (List.any_eq_true.mpr ⟨s0, hs0, decide_eq_true hs0p⟩)]
    rw [hopt]
    unfold decideThermostatOptimized
    dsimp only
    rw [hsolar, if_neg (by simp), if_neg hnola, hhr]
  · intro hcoast
    have hhr : checkThermalHeadroom t (upcoming_slots.map (fun s => s.price))
        upcoming_slots pool current_slot_start =
        some { subentry_id := t.subentry_id
               should_be_on := true
               remaining_runtime_min := 0
               scheduled_slots := [current_slot_start]
               reason := "Heating: low thermal headroom" } := by
      unfold checkThermalHeadroom
      rw [hw, htemp]
      dsimp only
      rw [if_neg (not_le.mpr hpow), if_neg hdeg,
        if_neg (by
          rintro ⟨h2, _⟩
          have : HEADROOM_URGENT_HOURS < HEADROOM_COAST_HOURS := by
            norm_num [HEADROOM_URGENT_HOURS, HEADROOM_COAST_HOURS]
          linarith),
        if_pos (lt_of_lt_of_le hcoast (le_refl _) : _ < HEADROOM_URGENT_HOURS), hcs]
    rw [hopt]
    unfold decideThermostatOptimized
    dsimp only
    rw [hsolar, if_neg (by simp), if_neg hnola, hhr]

/-- C6 (witness): band `[18, 22]`, temperature 20°, effective power 1000 W.
With `wh_per_degree = 1500`, `coast_hours = 3 > 2` and a cheaper upcoming
slot (price 1 < 2) exists in the coast window, so the decision is to coast;
with `wh_per_degree = 100`, `coast_hours = 0.2 < 0.5`, so it heats. -/
theorem claim_C6_witness :
    (decideThermostat
      { subentry_id := "c6a", name := "t", switch_entity := "s", power_sensor := "p",
        temperature_sensor := "ts", peak_usage_w := 2000, target_temp_low := 18,
        target_temp_high := 22, priority := 1, learned_avg_power_w := some 1000,
        wh_per_degree := some 1500, current_temperature := some 20 }
      (some { start_time := 36000, price := 2, energy_price := 0, solar_production_w := 0,
              solar_surplus_w := 0, remaining_solar_w := 0 })
      [1]
      [{ start_time := 36900, price := 1, energy_price := 0, solar_production_w := 0,
         solar_surplus_w := 0, remaining_solar_w := 0 }]
      [{ start_time := 36000, price := 2, energy_price := 0, solar_production_w := 0,
         solar_surplus_w := 0, remaining_solar_w := 0 }]
      36000).should_be_on = false ∧
    (decideThermostat
      { subentry_id := "c6b", name := "t", switch_entity := "s", power_sensor := "p",
        temperature_sensor := "ts", peak_usage_w := 2000, target_temp_low := 18,
        target_temp_high := 22, priority := 1, learned_avg_power_w := some 1000,
        wh_per_degree := some 100, current_temperature := some 20 }
      (some { start_time := 36000, price := 2, energy_price := 0, solar_production_w := 0,
              solar_surplus_w := 0, remaining_solar_w := 0 })
      [1]
      [{ start_time := 36900, price := 1, energy_price := 0, solar_production_w := 0,
         solar_surplus_w := 0, remaining_solar_w := 0 }]
      [{ start_time := 36000, price := 2, energy_price := 0, solar_production_w := 0,
         solar_surplus_w := 0, remaining_solar_w := 0 }]
      36000).should_be_on = true := by
  constructor
  · exact (claim_C6 _ _ _ _ 36000 20 1500 (by decide) rfl
      (by norm_num [lowerBound]) (by norm_num [upperBound]) rfl
      (by norm_num [effectivePowerW]) (by norm_num [List.find?])
      (by norm_num [effectivePowerW])
      (by
        rintro ⟨-, hsoon⟩
        norm_num [solarComingSoon, effectivePowerW] at hsoon)).1
      (by norm_num [HEADROOM_COAST_HOURS, effectivePowerW, lowerBound])
      ⟨{ start_time := 36900, price := 1, energy_price := 0, solar_production_w := 0,
         solar_surplus_w := 0, remaining_solar_w := 0 },
       by
         have h12 : Int.toNat 12 = 12 := rfl
         norm_num [effectivePowerW, lowerBound, SLOT_DURATION_MIN, h12], by norm_num⟩
  · exact (claim_C6 _ _ _ _ 36000 20 100 (by decide) rfl
      (by norm_num [lowerBound]) (by norm_num [upperBound]) rfl
      (by norm_num [effectivePowerW]) (by norm_num [List.find?])
      (by norm_num [effectivePowerW])
      (by
        rintro ⟨-, hsoon⟩
        norm_num [solarComingSoon, effectivePowerW] at hsoon)).2
      (by norm_num [HEADROOM_URGENT_HOURS, effectivePowerW, lowerBound])

/-! ### C8: manual-device solar accounting -/

/-- C8 (counterexample): the claim says the solar-coverage comparison inside
the per-slot cost still uses peak watts even when `avg_watts` is provided.
In the code, `_score_window` passes `avg or peak` into the whole of
`_cost_for_device_in_slot`, so the coverage comparison uses the average:
with 150 W remaining, peak 200 W and avg 100 W the code takes the
fully-covered branch (cost −1), while a peak-based comparison
(`c8ClaimSlotCost`, modelled from the claim's wording) yields the partial
branch (cost −1/2). -/
theorem claim_C8_counterexample :
    (let slot : SlotInfo :=
      { start_time := 36000, price := 1, energy_price := 0, solar_production_w := 150,
        solar_surplus_w := 150, remaining_solar_w := 150 }
     (scoreWindow [36000] [slot] 200 (some 100)).1 = -1 ∧
       ([(36000 : ℚ)].map (fun st => c8ClaimSlotCost (slotAt [slot] st) 200 (some 100))).sum =
         -(1 / 2) ∧
       (scoreWindow [36000] [slot] 200 (some 100)).1 ≠
         ([(36000 : ℚ)].map
           (fun st => c8ClaimSlotCost (slotAt [slot] st) 200 (some 100))).sum) := by
  norm_num [scoreWindow, c8ClaimSlotCost, costForDeviceInSlot, avgOrPeak, slotAt, List.find?]

/-- C8 (amended): `avg_watts` never affects the binary "is this slot fully
solar" count (`solar_fraction` is the proportion of window slots whose
remaining solar covers *peak*), but the per-slot *cost* — including the
solar-coverage comparison inside it — is computed entirely from
`avg or peak`: with a non-zero average `a` the window cost equals the cost
of a device whose peak is `a`. -/
theorem claim_C8_amended (window_slots : List ℚ) (pool : Pool) (peak : ℚ)
    (avg : Option ℚ) :
    (scoreWindow window_slots pool peak avg).2 =
      (scoreWindow window_slots pool peak none).2 ∧
    (∀ a : ℚ, avg = some a → a ≠ 0 →
      (scoreWindow window_slots pool peak avg).1 =
        (scoreWindow window_slots pool a none).1) ∧
    (scoreWindow window_slots pool peak avg).2 =
      (if window_slots.isEmpty then 0 else
        ((window_slots.countP
            (fun st => decide (peak ≤ (slotAt pool st).remaining_solar_w)) : ℚ) /
          (window_slots.length : ℚ))) := by
  refine ⟨rfl, fun a ha hne => ?_, rfl⟩
  subst ha
  simp only [scoreWindow, avgOrPeak, if_neg hne]

/-- C8 (witness): the amended theorem at the counterexample's slot — the
solar fraction is 0 (peak 200 W uncovered) in both calls, and the cost with
average 100 W equals the cost of a 100 W-peak device. -/
theorem claim_C8_amended_witness :
    (scoreWindow [36000]
      [{ start_time := 36000, price := 1, energy_price := 0, solar_production_w := 150,
         solar_surplus_w := 150, remaining_solar_w := 150 }] 200 (some 100)).1 =
      (scoreWindow [36000]
        [{ start_time := 36000, price := 1, energy_price := 0, solar_production_w := 150,
           solar_surplus_w := 150, remaining_solar_w := 150 }] 100 none).1 ∧
    (scoreWindow [36000]
      [{ start_time := 36000, price := 1, energy_price := 0, solar_production_w := 150,
         solar_surplus_w := 150, remaining_solar_w := 150 }] 200 (some 100)).2 = 0 := by
  constructor
  · exact (claim_C8_amended [36000] _ 200 (some 100)).2.1 100 rfl (by norm_num)
  · rw [(claim_C8_amended [36000] _ 200 (some 100)).2.2]
    norm_num [slotAt, List.find?]

/-! ### C7: manual-device delay offsets -/

/-- The last element of a `k`-slot window mapped over `List.range`. -/
theorem getLast?_range_map (f : ℕ → α) (k : ℕ) (hk : k ≠ 0) :
    ((List.range k).map f).getLast? = some (f (k - 1)) := by
  obtain ⟨n, rfl⟩ := Nat.exists_eq_succ_of_ne_zero hk
  rw [List.range_succ, List.map_append]
  simp

/-- A produced delay window carries the floor-snapped start and its offset. -/
theorem delayWindowForOffset_fields {request : ManualDeviceScheduleRequest} {pool : Pool}
    {eligible : List ℚ} {slots_needed : ℕ} {now d : ℚ} {w : ManualDeviceWindow}
    (h : delayWindowForOffset request pool eligible slots_needed now d = some w) :
    w.start_time = snapToSlot (now + 3600 * d) ∧ w.delay_hours = some d := by
  unfold delayWindowForOffset at h
  dsimp only at h
  rcases hgl : ((List.range slots_needed).map
      (fun k : ℕ => snapToSlot (now + 3600 * d) + slotDurS * (k : ℚ))).getLast? with _ | last
  · rw [hgl] at h
    exact absurd h (by simp)
  · rw [hgl] at h
    dsimp only at h
    split_ifs at h
    injection h with h
    subst h
    exact ⟨rfl, rfl⟩

/-- An offset whose window runs past the horizon produces no window. -/
theorem delayWindowForOffset_eq_none {request : ManualDeviceScheduleRequest} {pool : Pool}
    {eligible : List ℚ} {slots_needed : ℕ} {now d : ℚ} (hk : slots_needed ≠ 0)
    (hpast : eligible.getLastD now <
      snapToSlot (now + 3600 * d) + slotDurS * ((slots_needed - 1 : ℕ) : ℚ)) :
    delayWindowForOffset request pool eligible slots_needed now d = none := by
  unfold delayWindowForOffset
  dsimp only
  rw [getLast?_range_map _ slots_needed hk]
  dsimp only
  rw [if_pos hpast]

/-- Counting matches in a `filterMap` against counting their sources. -/
theorem countP_filterMap_le (f : α → Option β) (p : β → Bool) (q : α → Bool)
    (h : ∀ a b, f a = some b → p b = true → q a = true) :
    ∀ L : List α, (L.filterMap f).countP p ≤ L.countP q := by
  intro L
  induction L with
  | nil => simp
  | cons a L ih =>
    rw [List.filterMap_cons, List.countP_cons]
    cases hfa : f a with
    | none => exact ih.trans (Nat.le_add_right _ _)
    | some b =>
      rw [List.countP_cons]
      cases hpb : p b with
      | false => exact (Nat.add_le_add ih (Nat.zero_le _))
      | true =>
        rw [h a b hfa hpb]
        exact Nat.add_le_add ih (le_refl 1)

/-- C7 (counterexample): the claim says candidate windows start at
`now + offset` snapped to the *nearest* slot boundary.  The code snaps
*down*: at `now` = 00:10 with a 1-hour offset, the target 01:10 is snapped
to 01:00 (the produced window's start), while the nearest boundary is
01:15. -/
theorem claim_C7_counterexample :
    (let request : ManualDeviceScheduleRequest :=
      { subentry_id := "m7", name := "m", peak_usage_w := 100, cycle_duration_min := 15,
        priority := 5, delay_intervals_h := some [1] }
     let pool : Pool :=
       [{ start_time := 3600, price := 7, energy_price := 0, solar_production_w := 0,
          solar_surplus_w := 0, remaining_solar_w := 0 }]
     let R := computeManualDeviceRankings request pool 600
     R.windows.map (fun w => w.start_time) = [3600] ∧
       nearestSlotBoundary (600 + 3600 * 1) = 4500 ∧
       ∀ w ∈ R.windows, w.start_time ≠ nearestSlotBoundary (600 + 3600 * 1)) := by
  have h1 : Int.toNat 1 = 1 := rfl
  have hround0 : nearestSlotBoundary 4200 = 4500 := by
    rw [nearestSlotBoundary, round_eq]
    norm_num [slotDurS, SLOT_DURATION_MIN]
  have hround : nearestSlotBoundary (600 + 3600 * 1) = 4500 := by
    norm_num [hround0]
  refine ⟨?_, hround, ?_⟩ <;>
    norm_num [computeManualDeviceRankings, rankDelayIntervalWindows, delayWindowForOffset,
      listSort, insertSorted, snapToSlot, hourStart, minuteOf, dayStart, scoreWindow,
      costForDeviceInSlot, avgOrPeak, slotAt, List.find?, List.filterMap_cons, slotDurS,
      SLOT_DURATION_MIN, hround, hround0, h1, List.range_succ, List.range_zero,
      List.getLast?_concat]

/-- C7 (amended): with delay offsets configured, every candidate window
starts at `now + offset` snapped *down* to the slot boundary containing it
(not the nearest boundary) and records its offset; each offset entry
contributes at most one window; and an offset whose window would run past
the available price horizon contributes no window. -/
theorem claim_C7_amended (request : ManualDeviceScheduleRequest) (pool : Pool)
    (eligible : List ℚ) (slots_needed : ℕ) (now : ℚ) :
    (∀ w ∈ rankDelayIntervalWindows request pool eligible slots_needed now,
      ∃ d ∈ request.delay_intervals_h.getD [],
        w.start_time = snapToSlot (now + 3600 * d) ∧ w.delay_hours = some d) ∧
    (∀ d : ℚ,
      (rankDelayIntervalWindows request pool eligible slots_needed now).countP
          (fun w => w.delay_hours == some d) ≤
        (request.delay_intervals_h.getD []).countP (fun x => x == d)) ∧
    (∀ d ∈ request.delay_intervals_h.getD [], slots_needed ≠ 0 →
      eligible.getLastD now <
        snapToSlot (now + 3600 * d) + slotDurS * ((slots_needed - 1 : ℕ) : ℚ) →
      ∀ w ∈ rankDelayIntervalWindows request pool eligible slots_needed now,
        w.delay_hours ≠ some d) := by
  refine ⟨?_, ?_, ?_⟩
  · intro w hw
    obtain ⟨d, hd, hfd⟩ := List.mem_filterMap.mp hw
    exact ⟨d, mem_listSort.mp hd, delayWindowForOffset_fields hfd⟩
  · intro d
    have h := countP_filterMap_le
      (delayWindowForOffset request pool eligible slots_needed now)
      (fun w => w.delay_hours == some d) (fun x => x == d)
      (fun a b hfa hpb => by
        have hb := (delayWindowForOffset_fields hfa).2
        have hpb2 : (b.delay_hours == some d) = true := hpb
        rw [hb] at hpb2
        have had : a = d := by simpa using hpb2
        simpa using had)
      (listSort (fun a b => decide (a ≤ b)) (request.delay_intervals_h.getD []))
    refine h.trans (le_of_eq ?_)
    exact (listSort_perm _ _).countP_eq _
  · intro d _ hk hpast w hw hdel
    obtain ⟨d', hd', hfd⟩ := List.mem_filterMap.mp hw
    have hfields := delayWindowForOffset_fields hfd
    rw [hfields.2] at hdel
    have : d' = d := by simpa using hdel
    subst this
    rw [delayWindowForOffset_eq_none hk hpast] at hfd
    exact absurd hfd (by simp)

/-- C7 (witness): the amended theorem at the counterexample's configuration —
one offset entry contributes at most one window, and with a 9-slot cycle the
single-slot horizon drops the offset entirely. -/
theorem claim_C7_amended_witness :
    ((rankDelayIntervalWindows
        { subentry_id := "m7", name := "m", peak_usage_w := 100, cycle_duration_min := 15,
          priority := 5, delay_intervals_h := some [1] }
        [{ start_time := 3600, price := 7, energy_price := 0, solar_production_w := 0,
           solar_surplus_w := 0, remaining_solar_w := 0 }]
        [3600] 1 600).countP (fun w => w.delay_hours == some 1) ≤
      ([(1 : ℚ)]).countP (fun x => x == 1)) ∧
    (∀ w ∈ rankDelayIntervalWindows
        { subentry_id := "m7", name := "m", peak_usage_w := 100, cycle_duration_min := 15,
          priority := 5, delay_intervals_h := some [1] }
        [{ start_time := 3600, price := 7, energy_price := 0, solar_production_w := 0,
           solar_surplus_w := 0, remaining_solar_w := 0 }]
        [3600] 9 600, w.delay_hours ≠ some 1) := by
  constructor
  · exact (claim_C7_amended _ _ [3600] 1 600).2.1 1
  · exact (claim_C7_amended _ _ [3600] 9 600).2.2 1 (by norm_num) (by norm_num)
      (by norm_num [snapToSlot, hourStart, minuteOf, slotDurS, SLOT_DURATION_MIN])

/-! ### C2: monotonic depletion invariant -/

/-- `sameStatic` is transitive. -/
theorem sameStatic_trans {a b c : SlotInfo} (h1 : sameStatic a b) (h2 : sameStatic b c) :
    sameStatic a c :=
  ⟨h2.1.trans h1.1, h2.2.1.trans h1.2.1, h2.2.2.1.trans h1.2.2.1,
   h2.2.2.2.1.trans h1.2.2.2.1, h2.2.2.2.2.trans h1.2.2.2.2⟩

/-- `slotDepletes` is reflexive. -/
theorem slotDepletes_refl (a : SlotInfo) : slotDepletes a a :=
  ⟨⟨rfl, rfl, rfl, rfl, rfl⟩, fun ha => ⟨le_refl _, ha⟩⟩

/-- `slotDepletes` is transitive. -/
theorem slotDepletes_trans {a b c : SlotInfo} (h1 : slotDepletes a b)
    (h2 : slotDepletes b c) : slotDepletes a c := by
  refine ⟨sameStatic_trans h1.1 h2.1, fun ha => ?_⟩
  obtain ⟨hba, hb⟩ := h1.2 ha
  obtain ⟨hcb, hc⟩ := h2.2 hb
  exact ⟨hcb.trans hba, hc⟩

/-- `Depletes` is reflexive. -/
theorem Depletes_refl (p : Pool) : Depletes p p :=
  List.forall₂_same.mpr (fun x _ => slotDepletes_refl x)

/-- `Depletes` is transitive. -/
theorem Depletes_trans {p q r : Pool} (h1 : Depletes p q) (h2 : Depletes q r) :
    Depletes p r := by
  induction h1 generalizing r with
  | nil =>
    cases h2
    exact List.Forall₂.nil
  | cons hab h ih =>
    cases h2 with
    | cons hbc h2t => exact List.Forall₂.cons (slotDepletes_trans hab hbc) (ih h2t)

/-- Mapping a pointwise-depleting function depletes the pool. -/
theorem Depletes_map {p : Pool} (g : SlotInfo → SlotInfo)
    (h : ∀ s ∈ p, slotDepletes s (g s)) : Depletes p (p.map g) := by
  induction p with
  | nil => exact List.Forall₂.nil
  | cons a p ih =>
    exact List.Forall₂.cons (h a (List.mem_cons_self a p))
      (ih (fun s hs => h s (List.mem_cons_of_mem a hs)))

/-- A conditional `max 0 (r − c)` update with `c ≥ 0` is a depletion step. -/
theorem slotDepletes_condDeduct (c : ℚ) (hc : 0 ≤ c) (cond : Prop) [Decidable cond]
    (a : SlotInfo) :
    slotDepletes a
      (if cond then { a with remaining_solar_w := max 0 (a.remaining_solar_w - c) }
       else a) := by
  split_ifs
  · exact ⟨⟨rfl, rfl, rfl, rfl, rfl⟩,
      fun ha => ⟨max_le ha (by linarith), le_max_left 0 _⟩⟩
  · exact slotDepletes_refl a

/-- `deductSolar` with non-negative consumption depletes. -/
theorem Depletes_deductSolar (p : Pool) (t c : ℚ) (hc : 0 ≤ c) :
    Depletes p (deductSolar p t c) :=
  Depletes_map _ (fun s _ => slotDepletes_condDeduct c hc _ s)

/-- Reservation application depletes, given non-negative manual peaks. -/
theorem Depletes_applyReservations (reservations : List (String × ℚ × ℚ))
    (manual_requests : List ManualDeviceScheduleRequest)
    (hman : ∀ r ∈ manual_requests, 0 ≤ r.peak_usage_w) :
    ∀ p : Pool, Depletes p (applyReservationsToSlotInfo p reservations manual_requests) := by
  induction reservations with
  | nil => exact fun p => Depletes_refl p
  | cons r rs ih =>
    intro p
    rw [applyReservationsToSlotInfo]
    refine Depletes_trans ?_ (ih _)
    cases hf : manual_requests.find? (fun q => q.subentry_id == r.1) with
    | none => exact Depletes_refl p
    | some req =>
      exact Depletes_map _
        (fun s _ => slotDepletes_condDeduct req.peak_usage_w
          (hman req (List.mem_of_find?_eq_some hf)) _ s)

/-- The solar consumption charged to a device is non-negative when its peak
is (the actual-power branch already filters negative readings). -/
theorem solarConsumption_nonneg (d : DeviceScheduleRequest) (st cur : ℚ)
    (hd : 0 ≤ d.peak_usage_w) : 0 ≤ solarConsumptionForDevice d st cur := by
  unfold solarConsumptionForDevice effectiveUsageW
  split_ifs
  · cases ha : d.actual_usage_w with
    | none => exact hd
    | some a =>
      dsimp only
      split_ifs with h
      · simp only [Bool.and_eq_true, decide_eq_true_eq] at h
        exact h.2
      · exact hd
  · exact hd

/-- The phase-1 inner loop depletes the pool. -/
theorem Depletes_forceAssignSlots (device : DeviceScheduleRequest) (cur : ℚ)
    (hd : 0 ≤ device.peak_usage_w) :
    ∀ (eligible : List ℚ) (init : DeviceState × Pool),
      Depletes init.2 (forceAssignSlots device cur eligible init).2 := by
  intro eligible
  induction eligible with
  | nil => exact fun init => Depletes_refl _
  | cons t ts ih =>
    intro init
    rw [forceAssignSlots]
    by_cases hmem : t ∈ init.1.assigned_slots
    · rw [if_pos hmem]
      exact ih init
    · rw [if_neg hmem]
      refine Depletes_trans
        (Depletes_deductSolar init.2 t _ (solarConsumption_nonneg device t cur hd)) ?_
      exact ih
        ({ init.1 with
            assigned_slots := init.1.assigned_slots ++ [t]
            remaining_needed := init.1.remaining_needed - 1 },
         deductSolar init.2 t (solarConsumptionForDevice device t cur))

/-- Phase 1 depletes the pool. -/
theorem Depletes_applyDeadlineForced (now cur : ℚ) :
    ∀ (devices : List DeviceScheduleRequest), (∀ d ∈ devices, 0 ≤ d.peak_usage_w) →
      ∀ sp : States × Pool, Depletes sp.2 (applyDeadlineForced now cur devices sp).2 := by
  intro devices
  induction devices with
  | nil => exact fun _ sp => Depletes_refl _
  | cons d ds ih =>
    intro hdev sp
    have hd : 0 ≤ d.peak_usage_w := hdev d (List.mem_cons_self d ds)
    have hds : ∀ x ∈ ds, 0 ≤ x.peak_usage_w :=
      fun x hx => hdev x (List.mem_cons_of_mem d hx)
    rw [applyDeadlineForced]
    refine Depletes_trans ?_ (ih hds _)
    dsimp only
    by_cases h1 : (getEligibleSlots sp.2 now d.deadline).isEmpty
    · rw [if_pos h1]
      exact Depletes_refl _
    · rw [if_neg h1]
      by_cases h2 : (sp.1 d.subentry_id).remaining_needed <
          (getEligibleSlots sp.2 now d.deadline).length
      · rw [if_pos h2]
        exact Depletes_refl _
      · rw [if_neg h2]
        exact Depletes_forceAssignSlots d cur hd (getEligibleSlots sp.2 now d.deadline)
          ({ sp.1 d.subentry_id with forced_on := true }, sp.2)

/-- A fold that preserves a predicate, provided each step does. -/
theorem foldl_preserve {β γ : Type _} (f : β → γ → β) (P : β → Prop) :
    ∀ (L : List γ), (∀ b x, x ∈ L → P b → P (f b x)) → ∀ b, P b → P (L.foldl f b) := by
  intro L
  induction L with
  | nil => exact fun _ b hb => hb
  | cons x L ih =>
    intro h b hb
    exact ih (fun b' y hy => h b' y (List.mem_cons_of_mem x hy)) (f b x)
      (h b x (List.mem_cons_self x L) hb)

/-- The result of `scanEligible` is its accumulator or a pair built from the
scanned device. -/
theorem scanEligible_spec (device : DeviceScheduleRequest) (assigned : List ℚ)
    (pool : Pool) :
    ∀ (L : List ℚ) (best r : Option (ℚ × DeviceScheduleRequest × ℚ)),
      scanEligible device assigned pool L best = r →
      r = best ∨ ∃ c st, r = some (c, device, st) ∧ st ∈ L ∧ st ∉ assigned := by
  intro L
  induction L with
  | nil =>
    intro best r hr
    exact Or.inl hr.symm
  | cons st rest ih =>
    intro best r hr
    rw [scanEligible] at hr
    by_cases hmem : st ∈ assigned
    · rw [if_pos hmem] at hr
      rcases ih best r hr with h | ⟨c, st2, h1, h2, h3⟩
      · exact Or.inl h
      · exact Or.inr ⟨c, st2, h1, List.mem_cons_of_mem st h2, h3⟩
    · rw [if_neg hmem] at hr
      dsimp only at hr
      rcases ih _ r hr with h | ⟨c, st2, h1, h2, h3⟩
      · subst h
        split_ifs
        · exact Or.inr ⟨_, st, rfl, List.mem_cons_self st rest, hmem⟩
        · exact Or.inl rfl
      · exact Or.inr ⟨c, st2, h1, List.mem_cons_of_mem st h2, h3⟩

/-- The result of `scanDevices` is its accumulator or a pair whose device is
listed and has outstanding need. -/
theorem scanDevices_spec (states : States) (pool : Pool) (now : ℚ) :
    ∀ (L : List DeviceScheduleRequest) (best r : Option (ℚ × DeviceScheduleRequest × ℚ)),
      scanDevices states pool now L best = r →
      r = best ∨ ∃ c dv st, r = some (c, dv, st) ∧ dv ∈ L ∧
        (states dv.subentry_id).remaining_needed ≠ 0 ∧
        st ∈ getEligibleSlots pool now dv.deadline ∧
        st ∉ (states dv.subentry_id).assigned_slots := by
  intro L
  induction L with
  | nil =>
    intro best r hr
    exact Or.inl hr.symm
  | cons dv rest ih =>
    intro best r hr
    rw [scanDevices] at hr
    rcases ih _ r hr with h | ⟨c, dv2, st2, h1, h2, h3, h4, h5⟩
    · subst h
      by_cases hn : (states dv.subentry_id).remaining_needed = 0
      · rw [if_pos hn]
        exact Or.inl rfl
      · rw [if_neg hn]
        rcases scanEligible_spec dv _ pool _ best _ rfl with h | ⟨c, st, h1, h2, h3⟩
        · exact Or.inl h
        · exact Or.inr ⟨c, dv, st, h1, List.mem_cons_self dv rest, hn, h2, h3⟩
    · exact Or.inr ⟨c, dv2, st2, h1, List.mem_cons_of_mem dv h2, h3, h4, h5⟩

/-- A successful `_find_cheapest_assignment` returns a listed device with
outstanding need, together with an unassigned eligible slot. -/
theorem findCheapestAssignment_spec {devices : List DeviceScheduleRequest}
    {states : States} {pool : Pool} {now : ℚ} {dev : DeviceScheduleRequest} {t : ℚ}
    (h : findCheapestAssignment devices states pool now = some (dev, t)) :
    dev ∈ devices ∧ (states dev.subentry_id).remaining_needed ≠ 0 ∧
      t ∈ getEligibleSlots pool now dev.deadline ∧
      t ∉ (states dev.subentry_id).assigned_slots := by
  unfold findCheapestAssignment at h
  rw [Option.map_eq_some'] at h
  obtain ⟨b, hb, hbd⟩ := h
  rcases scanDevices_spec states pool now devices none b hb with h | ⟨c, dv, st, h1, h2, h3, h4, h5⟩
  · exact absurd h (by simp)
  · injection h1 with h1
    subst h1
    simp only [Prod.mk.injEq] at hbd
    obtain ⟨rfl, rfl⟩ := hbd
    exact ⟨h2, h3, h4, h5⟩

/-- Phase 2 depletes the pool, for any fuel. -/
theorem Depletes_applyCostOptimalFuel (devices : List DeviceScheduleRequest)
    (now cur : ℚ) (hdev : ∀ d ∈ devices, 0 ≤ d.peak_usage_w) :
    ∀ (n : ℕ) (sp : States × Pool),
      Depletes sp.2 (applyCostOptimalFuel devices now cur n sp).2 := by
  intro n
  induction n with
  | zero => exact fun sp => Depletes_refl _
  | succ n ih =>
    intro sp
    rw [applyCostOptimalFuel]
    cases hf : findCheapestAssignment devices sp.1 sp.2 now with
    | none => exact Depletes_refl _
    | some devt =>
      obtain ⟨device, slot_time⟩ := devt
      have hmem := (findCheapestAssignment_spec hf).1
      refine Depletes_trans ?_ (ih _)
      exact Depletes_deductSolar sp.2 slot_time _
        (solarConsumption_nonneg device slot_time cur (hdev device hmem))

/-- Phase 2 (as invoked) depletes the pool. -/
theorem Depletes_applyCostOptimal (devices : List DeviceScheduleRequest)
    (now cur : ℚ) (hdev : ∀ d ∈ devices, 0 ≤ d.peak_usage_w) (sp : States × Pool) :
    Depletes sp.2 (applyCostOptimal devices now cur sp).2 :=
  Depletes_applyCostOptimalFuel devices now cur hdev _ sp

/-- A thermostat's charged consumption is non-negative when its peak,
learned average, and live reading all are. -/
theorem thermostatConsumption_nonneg (t : ThermostatScheduleRequest)
    (h1 : 0 ≤ t.peak_usage_w) (h2 : ∀ l, t.learned_avg_power_w = some l → 0 ≤ l)
    (h3 : ∀ a, t.actual_usage_w = some a → 0 ≤ a) : 0 ≤ thermostatConsumption t := by
  have heff : 0 ≤ effectivePowerW t := by
    unfold effectivePowerW
    cases hl : t.learned_avg_power_w with
    | none => exact h1
    | some l => exact h2 l hl
  unfold thermostatConsumption
  cases ha : t.actual_usage_w with
  | none => exact heff
  | some a =>
    dsimp only
    split_ifs
    · exact heff
    · exact h3 a ha

/-- The thermostat loop depletes the pool. -/
theorem Depletes_thermoLoop (up : List ℚ) (ups : List SlotInfo) (cur : ℚ) :
    ∀ (L : List ThermostatScheduleRequest), (∀ t ∈ L, 0 ≤ thermostatConsumption t) →
      ∀ rp : List (String × ScheduleResult) × Pool,
        Depletes rp.2 (thermoLoop up ups cur L rp).2 := by
  intro L
  induction L with
  | nil => exact fun _ rp => Depletes_refl _
  | cons t ts ih =>
    intro h rp
    rw [thermoLoop]
    refine Depletes_trans ?_
      (ih (fun x hx => h x (List.mem_cons_of_mem t hx)) _)
    dsimp only
    split_ifs
    · exact Depletes_deductSolar rp.2 cur _ (h t (List.mem_cons_self t ts))
    · exact Depletes_refl _

/-- The thermostat engine depletes the shared pool. -/
theorem Depletes_computeThermostatDecisionsOnPool
    (thermostats : List ThermostatScheduleRequest) (pool : Pool) (now : ℚ)
    (h : ∀ t ∈ thermostats, 0 ≤ thermostatConsumption t) :
    Depletes pool (computeThermostatDecisionsOnPool thermostats pool now).2 := by
  unfold computeThermostatDecisionsOnPool
  split_ifs
  · exact Depletes_refl _
  · dsimp only
    exact Depletes_thermoLoop _ _ _ _ (fun t ht => h t (mem_listSort.mp ht)) ([], pool)

/-- Depletion preserves the §3 invariant. -/
theorem PoolInv_of_depletes {p q : Pool} (hd : Depletes p q) : PoolInv p → PoolInv q := by
  induction hd with
  | nil =>
    intro _ s hs
    exact absurd hs (List.not_mem_nil s)
  | @cons a b p' q' hab h ih =>
    intro hp s hs
    rcases List.mem_cons.mp hs with rfl | hs
    · have hpa := hp a (List.mem_cons_self a p')
      obtain ⟨hle, hnn⟩ := hab.2 hpa.1
      refine ⟨hnn, ?_⟩
      rw [hab.1.2.2.2.2]
      exact hle.trans hpa.2
    · exact ih (fun x hx => hp x (List.mem_cons_of_mem a hx)) s hs

/-- Membership in the dict-overwrite insertion. -/
theorem mem_insertSlot {pool : Pool} {s x : SlotInfo} (hx : x ∈ insertSlot pool s) :
    x ∈ pool ∨ x = s := by
  unfold insertSlot at hx
  split_ifs at hx
  · obtain ⟨u, hu, hux⟩ := List.mem_map.mp hx
    by_cases hc : (u.start_time == s.start_time) = true
    · rw [if_pos hc] at hux
      exact Or.inr hux.symm
    · rw [if_neg hc] at hux
      exact Or.inl (hux ▸ hu)
  · rcases List.mem_append.mp hx with h | h
    · exact Or.inl h
    · exact Or.inr (List.mem_singleton.mp h)

/-- Every slot produced by the build loop is fresh. -/
theorem buildSlotInfoLoop_fresh (solar_by_hour : List (ℚ × ℚ)) (hc now : ℚ) :
    ∀ (ps : List PriceSlot) (acc : Pool), (∀ s ∈ acc, slotFresh s) →
      ∀ s ∈ buildSlotInfoLoop solar_by_hour hc now ps acc, slotFresh s := by
  intro ps
  induction ps with
  | nil => exact fun acc h => h
  | cons slot rest ih =>
    intro acc hacc
    rw [buildSlotInfoLoop]
    split_ifs
    · exact ih acc hacc
    · refine ih _ ?_
      intro s hs
      rcases mem_insertSlot hs with h | rfl
      · exact hacc s h
      · exact ⟨rfl, le_max_left 0 _⟩

/-- The live-solar override keeps every slot fresh. -/
theorem applyLiveSolarOverride_fresh (pool : Pool) (live : Option ℚ) (now : ℚ)
    (h : ∀ s ∈ pool, slotFresh s) :
    ∀ s ∈ applyLiveSolarOverride pool live now, slotFresh s := by
  unfold applyLiveSolarOverride
  cases live with
  | none => exact h
  | some lv =>
    dsimp only
    cases hf : pool.find? (fun s => s.start_time == getCurrentSlotStart now) with
    | none => exact h
    | some current =>
      dsimp only
      split_ifs with h1 h2 h3
      · exact h
      all_goals {
        intro s hs
        obtain ⟨u, hu, hus⟩ := List.mem_map.mp hs
        have hlv : 0 ≤ lv := by
          have hcur := h current (List.mem_of_find?_eq_some hf)
          have := hcur.2
          push_neg at h1
          linarith
        have hufresh : slotFresh u := by
          first
          | exact h u hu
          | {
              obtain ⟨v, hv, hvu⟩ := List.mem_map.mp hu
              by_cases hcond : getCurrentSlotStart now < v.start_time ∧ 0 < v.solar_surplus_w
              · rw [if_pos hcond] at hvu
                subst hvu
                refine ⟨rfl, ?_⟩
                have h2' : (0 : ℚ) ≤ v.solar_surplus_w := le_of_lt hcond.2
                have hb : (0 : ℚ) ≤ lv / current.solar_surplus_w := le_of_lt (by linarith)
                exact mul_nonneg h2' hb
              · rw [if_neg hcond] at hvu
                exact hvu ▸ h v hv
            }
        by_cases hcond : (u.start_time == getCurrentSlotStart now) = true
        · rw [if_pos hcond] at hus
          subst hus
          exact ⟨rfl, hlv⟩
        · rw [if_neg hcond] at hus
          exact hus ▸ hufresh
      }

/-- The built pool (live override included) satisfies the §3 invariant. -/
theorem buildSlotInfo_PoolInv (price_slots : List PriceSlot)
    (solar_by_hour : List (ℚ × ℚ)) (hc now : ℚ) (live : Option ℚ) :
    PoolInv (buildSlotInfo price_slots solar_by_hour hc now live) := by
  intro s hs
  have hfresh : slotFresh s := by
    refine applyLiveSolarOverride_fresh _ live now ?_ s hs
    exact buildSlotInfoLoop_fresh solar_by_hour hc now price_slots [] (by simp)
  rw [hfresh.1]
  exact ⟨hfresh.2, le_refl _⟩

/-- C2: monotonic depletion.  Starting from the built pool (live-solar
override included), which satisfies `0 ≤ remaining_solar_w ≤ solar_surplus_w`
with equality, each of reservation application, phase-1 deadline forcing,
phase-2 cost-optimal assignment, and the thermostat solar deduction only
lowers `remaining_solar_w`, never below 0, and never changes any other
field — so the §3 invariant holds at every stage of the pass.  Preconditions:
all wattages used for deduction are non-negative. -/
theorem claim_C2 (price_slots : List PriceSlot) (solar_by_hour : List (ℚ × ℚ))
    (home_consumption_w now : ℚ) (live : Option ℚ)
    (reservations : List (String × ℚ × ℚ))
    (manual_requests : List ManualDeviceScheduleRequest)
    (devices : List DeviceScheduleRequest) (states : States)
    (thermostats : List ThermostatScheduleRequest)
    (hman : ∀ r ∈ manual_requests, 0 ≤ r.peak_usage_w)
    (hdev : ∀ d ∈ devices, 0 ≤ d.peak_usage_w)
    (hth : ∀ t ∈ thermostats, 0 ≤ t.peak_usage_w ∧
      (∀ l, t.learned_avg_power_w = some l → 0 ≤ l) ∧
      (∀ a, t.actual_usage_w = some a → 0 ≤ a)) :
    let p0 := buildSlotInfo price_slots solar_by_hour home_consumption_w now live
    let p1 := applyReservationsToSlotInfo p0 reservations manual_requests
    let sp2 := applyDeadlineForced now (getCurrentSlotStart now) devices (states, p1)
    let sp3 := applyCostOptimal devices now (getCurrentSlotStart now) sp2
    let rp4 := computeThermostatDecisionsOnPool thermostats sp3.2 now
    PoolInv p0 ∧ Depletes p0 p1 ∧ Depletes p1 sp2.2 ∧ Depletes sp2.2 sp3.2 ∧
      Depletes sp3.2 rp4.2 ∧ PoolInv rp4.2 := by
  intro p0 p1 sp2 sp3 rp4
  have h0 : PoolInv p0 := buildSlotInfo_PoolInv price_slots solar_by_hour
    home_consumption_w now live
  have h1 : Depletes p0 p1 := Depletes_applyReservations reservations manual_requests hman p0
  have h2 : Depletes p1 sp2.2 :=
    Depletes_applyDeadlineForced now (getCurrentSlotStart now) devices hdev (states, p1)
  have h3 : Depletes sp2.2 sp3.2 :=
    Depletes_applyCostOptimal devices now (getCurrentSlotStart now) hdev sp2
  have h4 : Depletes sp3.2 rp4.2 :=
    Depletes_computeThermostatDecisionsOnPool thermostats sp3.2 now
      (fun t ht => thermostatConsumption_nonneg t (hth t ht).1 (hth t ht).2.1 (hth t ht).2.2)
  exact ⟨h0, h1, h2, h3, h4,
    PoolInv_of_depletes h4 (PoolInv_of_depletes h3 (PoolInv_of_depletes h2
      (PoolInv_of_depletes h1 h0)))⟩

/-- C2 (witness): the whole pass at a concrete configuration — one price
slot with solar surplus, one reservation, one switch device, one
thermostat, all with non-negative wattages. -/
theorem claim_C2_witness :
    (let p0 := buildSlotInfo
      [{ start_time := 36000, price := some (1 / 4), energy_price := some (1 / 10) }]
      [(36000, 1800)] 300 36000 (some 2000)
     let p1 := applyReservationsToSlotInfo p0 [("m1", 36000, 36900)]
       [{ subentry_id := "m1", name := "m", peak_usage_w := 400,
          cycle_duration_min := 15, priority := 5 }]
     let sp2 := applyDeadlineForced 36000 (getCurrentSlotStart 36000)
       [{ subentry_id := "d1", name := "d", switch_entity := "sw", power_sensor := "pw",
          peak_usage_w := 500, daily_runtime_min := 15, deadline := ⟨23, 0, 0⟩,
          priority := 1 }]
       ((fun _ => default), p1)
     let sp3 := applyCostOptimal
       [{ subentry_id := "d1", name := "d", switch_entity := "sw", power_sensor := "pw",
          peak_usage_w := 500, daily_runtime_min := 15, deadline := ⟨23, 0, 0⟩,
          priority := 1 }] 36000 (getCurrentSlotStart 36000) sp2
     let rp4 := computeThermostatDecisionsOnPool
       [{ subentry_id := "t1", name := "t", switch_entity := "sw", power_sensor := "pw",
          temperature_sensor := "ts", peak_usage_w := 600, target_temp_low := 18,
          target_temp_high := 22, priority := 1, current_temperature := some 10 }]
       sp3.2 36000
     PoolInv p0 ∧ Depletes p0 p1 ∧ Depletes p1 sp2.2 ∧ Depletes sp2.2 sp3.2 ∧
       Depletes sp3.2 rp4.2 ∧ PoolInv rp4.2) := by
  exact claim_C2 _ _ 300 36000 (some 2000) _ _ _ _ _
    (by intro r hr; rw [List.mem_singleton.mp hr]; norm_num)
    (by intro d hd; rw [List.mem_singleton.mp hd]; norm_num)
    (by
      intro t ht
      rw [List.mem_singleton.mp ht]
      refine ⟨by norm_num, ?_, ?_⟩ <;> intro x hx <;> cases hx)

/-! ### Key-stability and state-isolation lemmas for the scheduling phases -/

/-- Solar deduction does not change the key set. -/
theorem poolKeys_deductSolar (p : Pool) (t c : ℚ) :
    poolKeys (deductSolar p t c) = poolKeys p := by
  unfold poolKeys deductSolar
  rw [List.map_map]
  refine List.map_congr_left ?_
  intro s _
  by_cases h : s.start_time = t
  · simp [h]
  · simp [h]

/-- Filtering keys commutes with projecting them. -/
theorem map_start_filter (p : Pool) (ddt : ℚ) :
    (p.filter (fun s => decide (s.start_time < ddt))).map (fun s => s.start_time) =
      (poolKeys p).filter (fun t => decide (t < ddt)) := by
  induction p with
  | nil => rfl
  | cons s rest ih =>
    simp only [poolKeys] at ih
    by_cases h : s.start_time < ddt
    · simp [poolKeys, List.filter_cons, h, ih]
    · simp [poolKeys, List.filter_cons, h, ih]

/-- Eligible slots depend only on the key set. -/
theorem getEligibleSlots_eq_keys (p : Pool) (now : ℚ) (dl : TimeOfDay) :
    getEligibleSlots p now dl =
      (if deadlineDt now dl ≤ now then []
       else listSort (fun a b => decide (a ≤ b))
        ((poolKeys p).filter (fun t => decide (t < deadlineDt now dl)))) := by
  unfold getEligibleSlots
  dsimp only
  rw [map_start_filter]

/-- Pools with equal keys have equal eligible slots. -/
theorem getEligibleSlots_congr {p q : Pool} (h : poolKeys p = poolKeys q)
    (now : ℚ) (dl : TimeOfDay) :
    getEligibleSlots p now dl = getEligibleSlots q now dl := by
  rw [getEligibleSlots_eq_keys, getEligibleSlots_eq_keys, h]

/-- Eligible slots are distinct when the pool keys are. -/
theorem getEligibleSlots_nodup {p : Pool} (h : (poolKeys p).Nodup) (now : ℚ)
    (dl : TimeOfDay) : (getEligibleSlots p now dl).Nodup := by
  rw [getEligibleSlots_eq_keys]
  split_ifs
  · exact List.nodup_nil
  · exact nodup_listSort (h.filter _)

/-- Eligible slots are chronologically sorted. -/
theorem getEligibleSlots_sorted (p : Pool) (now : ℚ) (dl : TimeOfDay) :
    (getEligibleSlots p now dl).Pairwise (fun a b => decide (a ≤ b) = true) := by
  rw [getEligibleSlots_eq_keys]
  split_ifs
  · exact List.Pairwise.nil
  · exact pairwise_listSort _
      (fun a b => by rcases le_total a b with h | h <;> simp [h])
      (fun a b c h1 h2 => by
        simp only [decide_eq_true_eq] at h1 h2 ⊢
        exact h1.trans h2) _

/-- The phase-1 inner loop keeps the key set. -/
theorem poolKeys_forceAssignSlots (device : DeviceScheduleRequest) (cur : ℚ) :
    ∀ (eligible : List ℚ) (dp : DeviceState × Pool),
      poolKeys (forceAssignSlots device cur eligible dp).2 = poolKeys dp.2 := by
  intro eligible
  induction eligible with
  | nil => exact fun dp => rfl
  | cons t ts ih =>
    intro dp
    rw [forceAssignSlots]
    split_ifs
    · exact ih dp
    · rw [ih]
      exact poolKeys_deductSolar dp.2 t _

/-- Phase 1 keeps the key set. -/
theorem poolKeys_applyDeadlineForced (now cur : ℚ) :
    ∀ (devices : List DeviceScheduleRequest) (sp : States × Pool),
      poolKeys (applyDeadlineForced now cur devices sp).2 = poolKeys sp.2 := by
  intro devices
  induction devices with
  | nil => exact fun sp => rfl
  | cons d ds ih =>
    intro sp
    rw [applyDeadlineForced]
    dsimp only
    split_ifs
    · exact ih sp
    · exact ih sp
    · rw [ih]
      exact poolKeys_forceAssignSlots d cur _ _

/-- Phase 2 keeps the key set, for any fuel. -/
theorem poolKeys_applyCostOptimalFuel (devices : List DeviceScheduleRequest)
    (now cur : ℚ) :
    ∀ (n : ℕ) (sp : States × Pool),
      poolKeys (applyCostOptimalFuel devices now cur n sp).2 = poolKeys sp.2 := by
  intro n
  induction n with
  | zero => exact fun sp => rfl
  | succ n ih =>
    intro sp
    rw [applyCostOptimalFuel]
    cases hf : findCheapestAssignment devices sp.1 sp.2 now with
    | none => rfl
    | some devt =>
      rw [ih]
      exact poolKeys_deductSolar sp.2 devt.2 _

/-- Two members of a list with distinct images under `f` and equal images
are equal. -/
theorem nodup_map_mem_eq {α β : Type _} {f : α → β} {l : List α}
    (h : (l.map f).Nodup) {a b : α} (ha : a ∈ l) (hb : b ∈ l) (hf : f a = f b) :
    a = b := by
  induction l with
  | nil => exact absurd ha (List.not_mem_nil a)
  | cons x l ih =>
    rw [List.map_cons, List.nodup_cons] at h
    rcases List.mem_cons.mp ha with ha1 | ha1
    · rcases List.mem_cons.mp hb with hb1 | hb1
      · rw [ha1, hb1]
      · subst ha1
        exact absurd (hf ▸ List.mem_map_of_mem f hb1) h.1
    · rcases List.mem_cons.mp hb with hb1 | hb1
      · subst hb1
        exact absurd (hf ▸ List.mem_map_of_mem f ha1) h.1
      · exact ih h.2 ha1 hb1

/-- State initialisation does not touch foreign keys. -/
theorem initStates_other {i : String} :
    ∀ (L : List DeviceScheduleRequest) (st : States),
      i ∉ L.map (fun d => d.subentry_id) → initStates L st i = st i := by
  intro L
  induction L with
  | nil => exact fun st _ => rfl
  | cons d ds ih =>
    intro st hi
    rw [List.map_cons, List.mem_cons, not_or] at hi
    rw [initStates, ih _ hi.2, updateState, if_neg hi.1]

/-- State initialisation writes each listed device's fresh state. -/
theorem initStates_lookup {L : List DeviceScheduleRequest}
    (h : (L.map (fun d => d.subentry_id)).Nodup) {d : DeviceScheduleRequest}
    (hd : d ∈ L) (st : States) :
    initStates L st d.subentry_id =
      { remaining_needed := remainingSlotsNeeded d, assigned_slots := [],
        forced_on := false } := by
  induction L generalizing st with
  | nil => exact absurd hd (List.not_mem_nil d)
  | cons x ds ih =>
    rw [List.map_cons, List.nodup_cons] at h
    rcases List.mem_cons.mp hd with rfl | hd
    · rw [initStates, initStates_other ds _ h.1, updateState, if_pos rfl]
    · exact ih h.2 hd _

/-- The phase-1 inner loop assigns precisely the fresh eligible slots. -/
theorem forceAssignSlots_state (device : DeviceScheduleRequest) (cur : ℚ) :
    ∀ (eligible : List ℚ) (dp : DeviceState × Pool),
      (∀ t ∈ eligible, t ∉ dp.1.assigned_slots) → eligible.Nodup →
      (forceAssignSlots device cur eligible dp).1 =
        { dp.1 with
            assigned_slots := dp.1.assigned_slots ++ eligible
            remaining_needed := dp.1.remaining_needed - eligible.length } := by
  intro eligible
  induction eligible with
  | nil =>
    intro dp _ _
    simp [forceAssignSlots]
  | cons t ts ih =>
    intro dp hnot hnd
    rw [List.nodup_cons] at hnd
    rw [forceAssignSlots, if_neg (hnot t (List.mem_cons_self t ts))]
    rw [ih _ ?hfresh hnd.2]
    · dsimp only
      rw [List.append_assoc, List.singleton_append, List.length_cons, Nat.sub_sub,
        Nat.add_comm 1 ts.length]
    case hfresh =>
      intro u hu
      dsimp only
      rw [List.mem_append, not_or, List.mem_singleton]
      exact ⟨hnot u (List.mem_cons_of_mem t hu), fun he => hnd.1 (he ▸ hu)⟩

/-- The state component of the phase-1 inner loop ignores the pool. -/
theorem forceAssignSlots_fst_pool_indep (device : DeviceScheduleRequest) (cur : ℚ) :
    ∀ (eligible : List ℚ) (ds : DeviceState) (p q : Pool),
      (forceAssignSlots device cur eligible (ds, p)).1 =
        (forceAssignSlots device cur eligible (ds, q)).1 := by
  intro eligible
  induction eligible with
  | nil => exact fun ds p q => rfl
  | cons t ts ih =>
    intro ds p q
    rw [forceAssignSlots, forceAssignSlots]
    dsimp only
    split_ifs
    · exact ih ds p q
    · exact ih _ _ _

/-- Phase 1 does not touch the state of an unlisted id. -/
theorem applyDeadlineForced_other (now cur : ℚ) {i : String} :
    ∀ (L : List DeviceScheduleRequest) (sp : States × Pool),
      i ∉ L.map (fun d => d.subentry_id) →
      (applyDeadlineForced now cur L sp).1 i = sp.1 i := by
  intro L
  induction L with
  | nil => exact fun sp _ => rfl
  | cons d ds ih =>
    intro sp hi
    rw [List.map_cons, List.mem_cons, not_or] at hi
    rw [applyDeadlineForced]
    dsimp only
    split_ifs
    · exact ih sp hi.2
    · exact ih sp hi.2
    · rw [ih _ hi.2]
      exact if_neg hi.1

/-- Phase 1's effect on the state of a listed device, assuming distinct ids:
exactly its own step, evaluated against the incoming pool's keys. -/
theorem applyDeadlineForced_lookup (now cur : ℚ) :
    ∀ (L : List DeviceScheduleRequest),
      ((L.map (fun d => d.subentry_id)).Nodup) →
      ∀ {d : DeviceScheduleRequest}, d ∈ L →
      ∀ (sp : States × Pool),
      (applyDeadlineForced now cur L sp).1 d.subentry_id =
        (if (getEligibleSlots sp.2 now d.deadline).isEmpty then sp.1 d.subentry_id
         else if (sp.1 d.subentry_id).remaining_needed <
             (getEligibleSlots sp.2 now d.deadline).length then
           sp.1 d.subentry_id
         else
           (forceAssignSlots d cur (getEligibleSlots sp.2 now d.deadline)
             ({ sp.1 d.subentry_id with forced_on := true }, sp.2)).1) := by
  intro L
  induction L with
  | nil =>
    intro _ d hd
    exact absurd hd (List.not_mem_nil d)
  | cons x ds ih =>
    intro hids d hd sp
    rw [List.map_cons, List.nodup_cons] at hids
    rcases List.mem_cons.mp hd with rfl | hd
    · rw [applyDeadlineForced]
      dsimp only
      rw [applyDeadlineForced_other now cur ds _ hids.1]
      split_ifs
      · rfl
      · rfl
      · show updateState _ _ _ _ = _
        unfold updateState
        rw [if_pos rfl]
    · have hxd : x.subentry_id ≠ d.subentry_id := by
        intro he
        exact hids.1 (he ▸ List.mem_map_of_mem _ hd)
      rw [applyDeadlineForced]
      dsimp only
      set sp' := (if (getEligibleSlots sp.2 now x.deadline).isEmpty then sp
        else if (sp.1 x.subentry_id).remaining_needed <
            (getEligibleSlots sp.2 now x.deadline).length then sp
        else
          ((updateState sp.1 x.subentry_id
            (forceAssignSlots x cur (getEligibleSlots sp.2 now x.deadline)
              ({ sp.1 x.subentry_id with forced_on := true }, sp.2)).1),
           (forceAssignSlots x cur (getEligibleSlots sp.2 now x.deadline)
             ({ sp.1 x.subentry_id with forced_on := true }, sp.2)).2)) with hsp'
      have hkeys : poolKeys sp'.2 = poolKeys sp.2 := by
        rw [hsp']
        split_ifs
        · rfl
        · rfl
        · exact poolKeys_forceAssignSlots x cur _ _
      have hstate : sp'.1 d.subentry_id = sp.1 d.subentry_id := by
        rw [hsp']
        split_ifs
        · rfl
        · rfl
        · exact if_neg (fun he => hxd he.symm)
      rw [ih hids.2 hd sp']
      rw [getEligibleSlots_congr hkeys, hstate]
      have hforce : (forceAssignSlots d cur (getEligibleSlots sp.2 now d.deadline)
          ({ sp.1 d.subentry_id with forced_on := true }, sp'.2)).1 =
          (forceAssignSlots d cur (getEligibleSlots sp.2 now d.deadline)
            ({ sp.1 d.subentry_id with forced_on := true }, sp.2)).1 :=
        forceAssignSlots_fst_pool_indep d cur _ _ _ _
      rw [hforce]

/-- Phase 2 never touches a state whose need is already met. -/
theorem applyCostOptimalFuel_zero (devices : List DeviceScheduleRequest)
    (now cur : ℚ) {i : String} :
    ∀ (n : ℕ) (sp : States × Pool), (sp.1 i).remaining_needed = 0 →
      (applyCostOptimalFuel devices now cur n sp).1 i = sp.1 i := by
  intro n
  induction n with
  | zero => exact fun sp _ => rfl
  | succ n ih =>
    intro sp hz
    rw [applyCostOptimalFuel]
    cases hf : findCheapestAssignment devices sp.1 sp.2 now with
    | none => rfl
    | some devt =>
      obtain ⟨device, slot_time⟩ := devt
      have hne := (findCheapestAssignment_spec hf).2.1
      have hdi : device.subentry_id ≠ i := by
        intro he
        exact hne (he ▸ hz)
      have hstep : (commitAssignment sp device slot_time cur).1 i = sp.1 i := by
        unfold commitAssignment
        exact if_neg (fun he => hdi he.symm)
      rw [ih _ (by rw [hstep]; exact hz), hstep]

/-- `find?` skips a prefix with no matches. -/
theorem find?_append_of_none {α : Type _} {p : α → Bool} :
    ∀ {l1 l2 : List α}, (∀ x ∈ l1, p x = false) →
      (l1 ++ l2).find? p = l2.find? p := by
  intro l1
  induction l1 with
  | nil => exact fun _ => rfl
  | cons a l1 ih =>
    intro l2 h
    rw [List.cons_append, List.find?_cons_of_neg _ (by simp [h a (List.mem_cons_self a l1)]),
      ih (fun x hx => h x (List.mem_cons_of_mem a hx))]

/-- Looking up a device's entry in the per-device results list. -/
theorem find?_results_lookup {β : Type _} (g : DeviceScheduleRequest → β) :
    ∀ {L : List DeviceScheduleRequest},
      ((L.map (fun d => d.subentry_id)).Nodup) →
      ∀ {d : DeviceScheduleRequest}, d ∈ L →
      (L.map (fun e => (e.subentry_id, g e))).find? (fun q => q.1 == d.subentry_id) =
        some (d.subentry_id, g d) := by
  intro L
  induction L with
  | nil =>
    intro _ d hd
    exact absurd hd (List.not_mem_nil d)
  | cons x ds ih =>
    intro hids d hd
    rw [List.map_cons, List.nodup_cons] at hids
    rcases List.mem_cons.mp hd with rfl | hd
    · rw [List.map_cons]
      exact List.find?_cons_of_pos _ (by simp)
    · have hxd : x.subentry_id ≠ d.subentry_id := by
        intro he
        exact hids.1 (he ▸ List.mem_map_of_mem _ hd)
      rw [List.map_cons, List.find?_cons_of_neg _ (by simp [hxd]),
        ih hids.2 hd]

/-- A device with outstanding runtime needs at least one slot. -/
theorem remainingSlotsNeeded_pos {d : DeviceScheduleRequest}
    (h : 0 < remainingRuntimeMin d) : 1 ≤ remainingSlotsNeeded d := by
  unfold remainingSlotsNeeded
  have hq : (0 : ℚ) < remainingRuntimeMin d / SLOT_DURATION_MIN := by
    apply div_pos h
    norm_num [SLOT_DURATION_MIN]
  have hceil : 0 < ⌈remainingRuntimeMin d / SLOT_DURATION_MIN⌉ := Int.ceil_pos.mpr hq
  omega

/-- A list with a member is not empty (Bool form). -/
theorem isEmpty_false_of_mem {α : Type _} {l : List α} {a : α} (h : a ∈ l) :
    l.isEmpty = false := by
  cases l with
  | nil => exact absurd h (List.not_mem_nil a)
  | cons b t => rfl

/-- `_build_result` on a deadline-forced state: the sorted assigned slots are
returned as scheduled, `should_be_on` is membership of the current slot, and
the reason is "Forced on: deadline pressure" exactly when the device is on now,
else "Waiting for cheaper slot". -/
theorem buildResult_forced (device : DeviceScheduleRequest) (pool : Pool) (cur : ℚ)
    (E : List ℚ) (hE : E.Pairwise (fun a b => decide (a ≤ b) = true))
    (hrun : 0 < remainingRuntimeMin device) :
    (buildResult device ⟨0, E, true⟩ pool cur).scheduled_slots = E ∧
    (buildResult device ⟨0, E, true⟩ pool cur).should_be_on = decide (cur ∈ E) ∧
    (buildResult device ⟨0, E, true⟩ pool cur).reason =
      (if cur ∈ E then "Forced on: deadline pressure"
       else "Waiting for cheaper slot") := by
  unfold buildResult
  dsimp only
  rw [listSort_of_pairwise _ _ hE]
  refine ⟨rfl, rfl, ?_⟩
  by_cases hmem : cur ∈ E
  · rw [if_pos hmem]
    simp [hmem]
  · rw [if_neg hmem]
    simp [hmem, determineReason, hrun]

/-- The full scheduling pass on a device whose eligible-slot count equals its
remaining need: its result entry assigns all eligible slots, is on exactly when
the current slot is eligible, and reports deadline pressure exactly when on. -/
theorem forcedDevice_result (devices : List DeviceScheduleRequest)
    (slot_info : Pool) (now : ℚ)
    (hids : (devices.map (fun e => e.subentry_id)).Nodup)
    (hkeys : (poolKeys slot_info).Nodup)
    {d : DeviceScheduleRequest} (hd : d ∈ devices)
    (hrun : 0 < remainingRuntimeMin d)
    (heq : (getEligibleSlots slot_info now d.deadline).length = remainingSlotsNeeded d) :
    ∃ r : ScheduleResult,
      ((computeSchedulesWithSlotInfo devices slot_info now).1).find?
          (fun q => q.1 == d.subentry_id) = some (d.subentry_id, r) ∧
      r.scheduled_slots = getEligibleSlots slot_info now d.deadline ∧
      r.should_be_on =
        decide (getCurrentSlotStart now ∈ getEligibleSlots slot_info now d.deadline) ∧
      r.reason =
        (if getCurrentSlotStart now ∈ getEligibleSlots slot_info now d.deadline
         then "Forced on: deadline pressure"
         else "Waiting for cheaper slot") := by
  have hkpos : 1 ≤ remainingSlotsNeeded d := remainingSlotsNeeded_pos hrun
  have heligN : (getEligibleSlots slot_info now d.deadline).Nodup :=
    getEligibleSlots_nodup hkeys now d.deadline
  have heligS := getEligibleSlots_sorted slot_info now d.deadline
  have hdact : d ∈ devices.filter (fun e => decide (0 < remainingRuntimeMin e)) :=
    List.mem_filter.mpr ⟨hd, by simp [hrun]⟩
  have hact_ids : ((devices.filter (fun e => decide (0 < remainingRuntimeMin e))).map
      (fun e => e.subentry_id)).Nodup :=
    hids.sublist ((List.filter_sublist devices).map (fun e => e.subentry_id))
  have hperm := listSort_perm (fun a b => decide (a.priority ≤ b.priority))
    (devices.filter (fun e => decide (0 < remainingRuntimeMin e)))
  have hdsort : d ∈ listSort (fun a b => decide (a.priority ≤ b.priority))
      (devices.filter (fun e => decide (0 < remainingRuntimeMin e))) :=
    hperm.mem_iff.mpr hdact
  have hsort_ids : ((listSort (fun a b => decide (a.priority ≤ b.priority))
      (devices.filter (fun e => decide (0 < remainingRuntimeMin e)))).map
        (fun e => e.subentry_id)).Nodup :=
    ((hperm.map (fun e => e.subentry_id)).nodup_iff).mpr hact_ids
  have hnotempty : ¬ ((getEligibleSlots slot_info now d.deadline).isEmpty = true) := by
    cases he : getEligibleSlots slot_info now d.deadline with
    | nil =>
      rw [he] at heq
      rw [List.length_nil] at heq
      intro _
      omega
    | cons a l => simp
  have hs0 : initStates (devices.filter (fun e => decide (0 < remainingRuntimeMin e)))
      (fun _ => default) d.subentry_id =
      { remaining_needed := remainingSlotsNeeded d, assigned_slots := [],
        forced_on := false } :=
    initStates_lookup hact_ids hdact _
  have hsp1 : (applyDeadlineForced now (getCurrentSlotStart now)
      (listSort (fun a b => decide (a.priority ≤ b.priority))
        (devices.filter (fun e => decide (0 < remainingRuntimeMin e))))
      (initStates (devices.filter (fun e => decide (0 < remainingRuntimeMin e)))
        (fun _ => default), slot_info)).1 d.subentry_id =
      ⟨0, getEligibleSlots slot_info now d.deadline, true⟩ := by
    rw [applyDeadlineForced_lookup now (getCurrentSlotStart now) _ hsort_ids hdsort _]
    dsimp only
    rw [if_neg hnotempty, hs0]
    dsimp only
    rw [heq, if_neg (lt_irrefl _)]
    have hforce := forceAssignSlots_state d (getCurrentSlotStart now)
      (getEligibleSlots slot_info now d.deadline)
      ({ remaining_needed := remainingSlotsNeeded d, assigned_slots := [],
         forced_on := true }, slot_info) (by simp) heligN
    rw [hforce]
    simp [heq]
  have hz : ((applyDeadlineForced now (getCurrentSlotStart now)
      (listSort (fun a b => decide (a.priority ≤ b.priority))
        (devices.filter (fun e => decide (0 < remainingRuntimeMin e))))
      (initStates (devices.filter (fun e => decide (0 < remainingRuntimeMin e)))
        (fun _ => default), slot_info)).1 d.subentry_id).remaining_needed = 0 := by
    rw [hsp1]
  have hcne : ¬ ((devices.filter
      (fun e => decide (0 < remainingRuntimeMin e))).isEmpty = true) := by
    rw [isEmpty_false_of_mem hdact]
    exact Bool.false_ne_true
  have hskip : ∀ x ∈ (devices.filter (fun e => decide (remainingRuntimeMin e ≤ 0))).map
      (fun e => (e.subentry_id,
        ({ subentry_id := e.subentry_id, should_be_on := false,
           remaining_runtime_min := 0, scheduled_slots := [],
           reason := "Daily runtime already met" } : ScheduleResult))),
      (x.1 == d.subentry_id) = false := by
    intro x hx
    obtain ⟨e, he, rfl⟩ := List.mem_map.mp hx
    have he2 := List.mem_filter.mp he
    have hne2 : e.subentry_id ≠ d.subentry_id := by
      intro h2
      have hed : e = d := nodup_map_mem_eq hids he2.1 hd h2
      rw [hed] at he2
      have hle : remainingRuntimeMin d ≤ 0 := by simpa using he2.2
      exact absurd hrun (not_lt.mpr hle)
    simp [hne2]
  have hfind : ((computeSchedulesWithSlotInfo devices slot_info now).1).find?
      (fun q => q.1 == d.subentry_id) =
      some (d.subentry_id,
        buildResult d ⟨0, getEligibleSlots slot_info now d.deadline, true⟩
          (computeSchedulesWithSlotInfo devices slot_info now).2
          (getCurrentSlotStart now)) := by
    simp only [computeSchedulesWithSlotInfo, applyCostOptimal]
    rw [if_neg hcne]
    dsimp only
    rw [find?_append_of_none hskip]
    rw [find?_results_lookup _ hsort_ids hdsort]
    rw [applyCostOptimalFuel_zero _ now (getCurrentSlotStart now) _ _ hz, hsp1]
  obtain ⟨h1, h2, h3⟩ := buildResult_forced d
    ((computeSchedulesWithSlotInfo devices slot_info now).2) (getCurrentSlotStart now)
    (getEligibleSlots slot_info now d.deadline) heligS hrun
  exact ⟨_, hfind, h1, h2, h3⟩

/-! ### C3: deadline forcing (stated after its machinery above) -/

/-- C3 (counterexample): a device whose eligible-slot count equals its
remaining need is forced and receives all eligible slots, but when the current
slot is not among them the result's reason is "Waiting for cheaper slot", not
the deadline-pressure message the claim promises unconditionally.  Here a
device needing one slot has exactly one eligible slot (10:15), the pass runs
at 10:00:30, and the device is off now. -/
theorem claim_C3_counterexample :
    (let d : DeviceScheduleRequest :=
      { subentry_id := "d1", name := "washer", switch_entity := "sw",
        power_sensor := "pw", peak_usage_w := 1000, daily_runtime_min := 15,
        deadline := ⟨23, 0, 0⟩, priority := 5 }
     let pool : Pool :=
      [{ start_time := 36900, price := 5, energy_price := 0,
         solar_production_w := 0, solar_surplus_w := 0, remaining_solar_w := 0 }]
     (getEligibleSlots pool 36030 d.deadline).length = remainingSlotsNeeded d ∧
     0 < remainingRuntimeMin d ∧
     ∃ r : ScheduleResult,
       ((computeSchedulesWithSlotInfo [d] pool 36030).1).find?
           (fun q => q.1 == d.subentry_id) = some (d.subentry_id, r) ∧
       r.scheduled_slots = getEligibleSlots pool 36030 d.deadline ∧
       r.should_be_on = false ∧
       r.reason ≠ "Forced on: deadline pressure") := by
  dsimp only
  have helig : getEligibleSlots
      [{ start_time := 36900, price := 5, energy_price := 0,
         solar_production_w := 0, solar_surplus_w := 0, remaining_solar_w := 0 }]
      36030 (⟨23, 0, 0⟩ : TimeOfDay) = [36900] := by
    norm_num [getEligibleSlots, deadlineDt, dayStart, listSort, insertSorted]
  have hcur : getCurrentSlotStart 36030 = 36000 := by
    norm_num [getCurrentSlotStart, snapToSlot, hourStart, minuteOf]
  have hneed : remainingSlotsNeeded
      ({ subentry_id := "d1", name := "washer", switch_entity := "sw",
         power_sensor := "pw", peak_usage_w := 1000, daily_runtime_min := 15,
         deadline := ⟨23, 0, 0⟩, priority := 5 } : DeviceScheduleRequest) = 1 := by
    norm_num [remainingSlotsNeeded, remainingRuntimeMin, SLOT_DURATION_MIN]
  have hrun : 0 < remainingRuntimeMin
      ({ subentry_id := "d1", name := "washer", switch_entity := "sw",
         power_sensor := "pw", peak_usage_w := 1000, daily_runtime_min := 15,
         deadline := ⟨23, 0, 0⟩, priority := 5 } : DeviceScheduleRequest) := by
    norm_num [remainingRuntimeMin]
  have heq1 : (getEligibleSlots
      [{ start_time := 36900, price := 5, energy_price := 0,
         solar_production_w := 0, solar_surplus_w := 0, remaining_solar_w := 0 }]
      36030 (⟨23, 0, 0⟩ : TimeOfDay)).length = remainingSlotsNeeded
      ({ subentry_id := "d1", name := "washer", switch_entity := "sw",
         power_sensor := "pw", peak_usage_w := 1000, daily_runtime_min := 15,
         deadline := ⟨23, 0, 0⟩, priority := 5 } : DeviceScheduleRequest) := by
    rw [helig, hneed]
    rfl
  obtain ⟨r, hr1, hr2, hr3, hr4⟩ := forcedDevice_result
    [({ subentry_id := "d1", name := "washer", switch_entity := "sw",
        power_sensor := "pw", peak_usage_w := 1000, daily_runtime_min := 15,
        deadline := ⟨23, 0, 0⟩, priority := 5 } : DeviceScheduleRequest)]
    [{ start_time := 36900, price := 5, energy_price := 0,
       solar_production_w := 0, solar_surplus_w := 0, remaining_solar_w := 0 }] 36030
    (by simp) (by norm_num [poolKeys]) (List.mem_cons_self _ _) hrun heq1
  refine ⟨heq1, hrun, r, hr1, hr2, ?_, ?_⟩
  · rw [hr3]
    dsimp only at helig hcur ⊢
    rw [hcur, helig]
    norm_num
  · rw [hr4]
    dsimp only at helig hcur ⊢
    rw [hcur, helig, if_neg (by norm_num)]
    decide

/-- C3 (amended): deadline forcing as claimed, except for the reason string:
for a device with outstanding runtime whose eligible-slot count equals its
remaining slot need (and distinct device ids / distinct pool keys, as the
program guarantees), all eligible slots are assigned regardless of their
prices and `should_be_on` is true exactly when the current slot is among
them; the reason reports deadline pressure only in that case, and is
"Waiting for cheaper slot" when the device is not due to run now. -/
theorem claim_C3_amended (devices : List DeviceScheduleRequest)
    (slot_info : Pool) (now : ℚ)
    (hids : (devices.map (fun e => e.subentry_id)).Nodup)
    (hkeys : (poolKeys slot_info).Nodup)
    {d : DeviceScheduleRequest} (hd : d ∈ devices)
    (hrun : 0 < remainingRuntimeMin d)
    (heq : (getEligibleSlots slot_info now d.deadline).length = remainingSlotsNeeded d) :
    ∃ r : ScheduleResult,
      ((computeSchedulesWithSlotInfo devices slot_info now).1).find?
          (fun q => q.1 == d.subentry_id) = some (d.subentry_id, r) ∧
      r.scheduled_slots = getEligibleSlots slot_info now d.deadline ∧
      r.should_be_on =
        decide (getCurrentSlotStart now ∈ getEligibleSlots slot_info now d.deadline) ∧
      r.reason =
        (if getCurrentSlotStart now ∈ getEligibleSlots slot_info now d.deadline
         then "Forced on: deadline pressure"
         else "Waiting for cheaper slot") :=
  forcedDevice_result devices slot_info now hids hkeys hd hrun heq

/-- C3 (witness): the amended theorem at a concrete input — a device needing
two slots with exactly two eligible slots (10:00 and 10:15) at 10:00:30; it is
forced on now with the deadline-pressure reason. -/
theorem claim_C3_amended_witness :
    (let d : DeviceScheduleRequest :=
      { subentry_id := "d2", name := "heater", switch_entity := "sw",
        power_sensor := "pw", peak_usage_w := 500, daily_runtime_min := 30,
        deadline := ⟨23, 0, 0⟩, priority := 5 }
     let pool : Pool :=
      [{ start_time := 36000, price := 5, energy_price := 0,
         solar_production_w := 0, solar_surplus_w := 0, remaining_solar_w := 0 },
       { start_time := 36900, price := 7, energy_price := 0,
         solar_production_w := 0, solar_surplus_w := 0, remaining_solar_w := 0 }]
     ∃ r : ScheduleResult,
       ((computeSchedulesWithSlotInfo [d] pool 36030).1).find?
           (fun q => q.1 == d.subentry_id) = some (d.subentry_id, r) ∧
       r.scheduled_slots = [(36000 : ℚ), 36900] ∧
       r.should_be_on = true ∧
       r.reason = "Forced on: deadline pressure") := by
  dsimp only
  have helig : getEligibleSlots
      [{ start_time := 36000, price := 5, energy_price := 0,
         solar_production_w := 0, solar_surplus_w := 0, remaining_solar_w := 0 },
       { start_time := 36900, price := 7, energy_price := 0,
         solar_production_w := 0, solar_surplus_w := 0, remaining_solar_w := 0 }]
      36030 (⟨23, 0, 0⟩ : TimeOfDay) = [36000, 36900] := by
    norm_num [getEligibleSlots, deadlineDt, dayStart, listSort, insertSorted]
  have hcur : getCurrentSlotStart 36030 = 36000 := by
    norm_num [getCurrentSlotStart, snapToSlot, hourStart, minuteOf]
  have hrun : 0 < remainingRuntimeMin
      ({ subentry_id := "d2", name := "heater", switch_entity := "sw",
         power_sensor := "pw", peak_usage_w := 500, daily_runtime_min := 30,
         deadline := ⟨23, 0, 0⟩, priority := 5 } : DeviceScheduleRequest) := by
    norm_num [remainingRuntimeMin]
  have hneed : remainingSlotsNeeded
      ({ subentry_id := "d2", name := "heater", switch_entity := "sw",
         power_sensor := "pw", peak_usage_w := 500, daily_runtime_min := 30,
         deadline := ⟨23, 0, 0⟩, priority := 5 } : DeviceScheduleRequest) = 2 := by
    norm_num [remainingSlotsNeeded, remainingRuntimeMin, SLOT_DURATION_MIN]
    rfl
  have heq1 : (getEligibleSlots
      [{ start_time := 36000, price := 5, energy_price := 0,
         solar_production_w := 0, solar_surplus_w := 0, remaining_solar_w := 0 },
       { start_time := 36900, price := 7, energy_price := 0,
         solar_production_w := 0, solar_surplus_w := 0, remaining_solar_w := 0 }]
      36030 (⟨23, 0, 0⟩ : TimeOfDay)).length = remainingSlotsNeeded
      ({ subentry_id := "d2", name := "heater", switch_entity := "sw",
         power_sensor := "pw", peak_usage_w := 500, daily_runtime_min := 30,
         deadline := ⟨23, 0, 0⟩, priority := 5 } : DeviceScheduleRequest) := by
    rw [helig, hneed]
    rfl
  obtain ⟨r, hr1, hr2, hr3, hr4⟩ := claim_C3_amended
    [({ subentry_id := "d2", name := "heater", switch_entity := "sw",
        power_sensor := "pw", peak_usage_w := 500, daily_runtime_min := 30,
        deadline := ⟨23, 0, 0⟩, priority := 5 } : DeviceScheduleRequest)]
    [{ start_time := 36000, price := 5, energy_price := 0,
       solar_production_w := 0, solar_surplus_w := 0, remaining_solar_w := 0 },
     { start_time := 36900, price := 7, energy_price := 0,
       solar_production_w := 0, solar_surplus_w := 0, remaining_solar_w := 0 }] 36030
    (by simp) (by norm_num [poolKeys]) (List.mem_cons_self _ _) hrun heq1
  refine ⟨r, hr1, ?_, ?_, ?_⟩
  · rw [hr2]
    dsimp only at helig ⊢
    rw [helig]
  · rw [hr3]
    dsimp only at helig hcur ⊢
    rw [hcur, helig]
    norm_num
  · rw [hr4]
    dsimp only at helig hcur ⊢
    rw [hcur, helig, if_pos (by norm_num)]

/-! ### Machinery for C4: cost-optimal assignment on a zero-solar pool -/

/-- Reading back the key just written to the `states` dict. -/
theorem updateState_self (st : States) (i : String) (v : DeviceState) :
    updateState st i v i = v := by
  unfold updateState
  rw [if_pos rfl]

/-- Rewriting `remaining_solar_w` with the value it already has is the
identity (the dict mutation in `_deduct_solar` is invisible on a depleted
slot). -/
theorem slotUpdateSelf (s : SlotInfo) (h : s.remaining_solar_w = 0) {v : ℚ}
    (hv : v = 0) : { s with remaining_solar_w := v } = s := by
  cases s
  simp_all

/-- On a pool with no remaining solar, a non-negative deduction leaves the
pool unchanged. -/
theorem deductSolar_zero (t c : ℚ) (hc : 0 ≤ c) :
    ∀ (pool : Pool), (∀ s ∈ pool, s.remaining_solar_w = 0) →
      deductSolar pool t c = pool
  | [], _ => rfl
  | s :: rest, h0 => by
    have hs : s.remaining_solar_w = 0 := h0 s (List.mem_cons_self s rest)
    have hrest := deductSolar_zero t c hc rest
      (fun x hx => h0 x (List.mem_cons_of_mem s hx))
    unfold deductSolar at hrest ⊢
    rw [List.map_cons, hrest]
    congr 1
    split_ifs
    · exact slotUpdateSelf s hs (by rw [hs]; exact max_eq_left (by linarith))
    · rfl

/-- Eligible slots are keys of the pool. -/
theorem getEligibleSlots_subset_keys (p : Pool) (now : ℚ) (dl : TimeOfDay) :
    getEligibleSlots p now dl ⊆ poolKeys p := by
  rw [getEligibleSlots_eq_keys]
  split_ifs
  · exact fun x hx => absurd hx (List.not_mem_nil x)
  · intro x hx
    rw [mem_listSort] at hx
    exact (List.mem_filter.mp hx).1

/-- Looking up a key of the pool lands on a stored slot. -/
theorem slotAt_mem {pool : Pool} {x : ℚ} (hx : x ∈ poolKeys pool) :
    slotAt pool x ∈ pool := by
  obtain ⟨s, hs, hsx⟩ := List.mem_map.mp hx
  cases hfind : pool.find? (fun s => s.start_time == x) with
  | none =>
    exfalso
    have hnone := List.find?_eq_none.mp hfind s hs
    simp [hsx] at hnone
  | some s2 =>
    unfold slotAt
    rw [hfind]
    exact List.mem_of_find?_eq_some hfind

/-- A candidate that does not beat the running best also does not beat any
later best (the running best only improves). -/
theorem betterPair_update {c : ℚ} {dev : DeviceScheduleRequest}
    {b : Option (ℚ × DeviceScheduleRequest × ℚ)} (hb : betterPair c dev b = false)
    {c2 : ℚ} {device : DeviceScheduleRequest} {u : ℚ}
    (h2 : betterPair c2 device b = true) :
    betterPair c dev (some (c2, device, u)) = false := by
  cases b with
  | none => simp [betterPair] at hb
  | some p3 =>
    obtain ⟨cb, bd, x⟩ := p3
    simp only [betterPair, Bool.or_eq_false_iff, Bool.or_eq_true,
      Bool.and_eq_false_iff, Bool.and_eq_true, decide_eq_false_iff_not,
      decide_eq_true_eq] at hb h2 ⊢
    obtain ⟨h1, h1'⟩ := hb
    constructor
    · rcases h2 with h | ⟨he, _⟩
      · intro hcc
        exact h1 (hcc.trans h)
      · intro hcc
        exact h1 (he ▸ hcc)
    · rcases h2 with h | ⟨he, hp⟩
      · left
        intro hcc
        rw [hcc] at h1
        exact h1 h
      · rcases h1' with h1' | h1'
        · left
          intro hcc
          exact h1' (hcc.trans he)
        · right
          omega

/-- Once a candidate fails to beat the running best, it fails against the
final best of the whole scan. -/
theorem scanEligible_notBetter (device : DeviceScheduleRequest) (assigned : List ℚ)
    (pool : Pool) (c : ℚ) (dev : DeviceScheduleRequest) :
    ∀ (L : List ℚ) (b : Option (ℚ × DeviceScheduleRequest × ℚ)),
      betterPair c dev b = false →
      betterPair c dev (scanEligible device assigned pool L b) = false := by
  intro L
  induction L with
  | nil => exact fun b hb => hb
  | cons u L ih =>
    intro b hb
    rw [scanEligible]
    split_ifs
    · exact ih b hb
    · dsimp only
      cases hbet : betterPair (costForDeviceInSlot (slotAt pool u) device.peak_usage_w)
          device b with
      | false =>
        rw [if_neg Bool.false_ne_true]
        exact ih b hb
      | true =>
        rw [if_pos rfl]
        exact ih _ (betterPair_update hb hbet)

/-- The inner scan returns nothing only if it started with nothing and every
slot it saw was already assigned. -/
theorem scanEligible_eq_none (device : DeviceScheduleRequest) (assigned : List ℚ)
    (pool : Pool) :
    ∀ (L : List ℚ) (b : Option (ℚ × DeviceScheduleRequest × ℚ)),
      scanEligible device assigned pool L b = none →
      b = none ∧ ∀ u ∈ L, u ∈ assigned := by
  intro L
  induction L with
  | nil =>
    intro b h
    exact ⟨h, by simp⟩
  | cons u L ih =>
    intro b h
    rw [scanEligible] at h
    split_ifs at h with hu
    · obtain ⟨hb, hall⟩ := ih b h
      refine ⟨hb, fun x hx => ?_⟩
      rcases List.mem_cons.mp hx with rfl | hx
      · exact hu
      · exact hall x hx
    · dsimp only at h
      obtain ⟨hb, hall⟩ := ih _ h
      exfalso
      cases hbet : betterPair (costForDeviceInSlot (slotAt pool u) device.peak_usage_w)
          device b with
      | true =>
        rw [hbet, if_pos rfl] at hb
        exact Option.some_ne_none _ hb
      | false =>
        rw [hbet, if_neg Bool.false_ne_true] at hb
        rw [hb] at hbet
        simp [betterPair] at hbet

/-- Provenance and minimality of the inner scan: a returned best is either the
initial one or a fresh eligible slot with its computed cost, and no slot the
scan saw beats it. -/
theorem scanEligible_some_spec (device : DeviceScheduleRequest) (assigned : List ℚ)
    (pool : Pool) :
    ∀ (L : List ℚ) (b : Option (ℚ × DeviceScheduleRequest × ℚ))
      (res : ℚ × DeviceScheduleRequest × ℚ),
      scanEligible device assigned pool L b = some res →
      (b = some res ∨
        (res.2.1 = device ∧ res.2.2 ∈ L ∧ res.2.2 ∉ assigned ∧
          res.1 = costForDeviceInSlot (slotAt pool res.2.2) device.peak_usage_w)) ∧
      (∀ u ∈ L, u ∉ assigned →
        betterPair (costForDeviceInSlot (slotAt pool u) device.peak_usage_w) device
          (some res) = false) := by
  intro L
  induction L with
  | nil =>
    intro b res h
    exact ⟨Or.inl h, by simp⟩
  | cons u L ih =>
    intro b res h
    rw [scanEligible] at h
    split_ifs at h with hu
    · obtain ⟨h1, h2⟩ := ih b res h
      refine ⟨?_, ?_⟩
      · rcases h1 with h1 | h1
        · exact Or.inl h1
        · exact Or.inr ⟨h1.1, List.mem_cons_of_mem u h1.2.1, h1.2.2⟩
      · intro x hx hxa
        rcases List.mem_cons.mp hx with rfl | hx
        · exact absurd hu hxa
        · exact h2 x hx hxa
    · dsimp only at h
      cases hbet : betterPair (costForDeviceInSlot (slotAt pool u) device.peak_usage_w)
          device b with
      | true =>
        rw [hbet, if_pos rfl] at h
        obtain ⟨h1, h2⟩ := ih _ res h
        refine ⟨?_, ?_⟩
        · rcases h1 with h1 | h1
          · injection h1 with h1
            exact Or.inr ⟨by rw [← h1], by rw [← h1]; exact List.mem_cons_self u L,
              by rw [← h1]; exact hu, by rw [← h1]⟩
          · exact Or.inr ⟨h1.1, List.mem_cons_of_mem u h1.2.1, h1.2.2⟩
        · intro x hx hxa
          rcases List.mem_cons.mp hx with rfl | hx
          · have hself : betterPair
                (costForDeviceInSlot (slotAt pool x) device.peak_usage_w) device
                (some (costForDeviceInSlot (slotAt pool x) device.peak_usage_w,
                  device, x)) = false := by
              simp [betterPair]
            have hmono := scanEligible_notBetter device assigned pool
              (costForDeviceInSlot (slotAt pool x) device.peak_usage_w) device L _ hself
            rw [h] at hmono
            exact hmono
          · exact h2 x hx hxa
      | false =>
        rw [hbet, if_neg Bool.false_ne_true] at h
        obtain ⟨h1, h2⟩ := ih b res h
        refine ⟨?_, ?_⟩
        · rcases h1 with h1 | h1
          · exact Or.inl h1
          · exact Or.inr ⟨h1.1, List.mem_cons_of_mem u h1.2.1, h1.2.2⟩
        · intro x hx hxa
          rcases List.mem_cons.mp hx with rfl | hx
          · have hmono := scanEligible_notBetter device assigned pool
              (costForDeviceInSlot (slotAt pool x) device.peak_usage_w) device L b hbet
            rw [h] at hmono
            exact hmono
          · exact h2 x hx hxa

/-- `_find_cheapest_assignment` over a single active device reduces to the
inner scan of that device's eligible slots. -/
theorem findCheapest_single (d : DeviceScheduleRequest) (states : States) (pool : Pool)
    (now : ℚ) (hne : (states d.subentry_id).remaining_needed ≠ 0) :
    findCheapestAssignment [d] states pool now =
      (scanEligible d (states d.subentry_id).assigned_slots pool
        (getEligibleSlots pool now d.deadline) none).map (fun b => (b.2.1, b.2.2)) := by
  unfold findCheapestAssignment
  rw [scanDevices]
  rw [if_neg hne]
  rfl

/-- The phase-2 loop for a single device on a zero-solar pool with pairwise
distinct eligible prices: starting from a greedy-so-far state it completes the
device's need cheapest-first, never changing the pool. -/
theorem costOptimalSingleRun (d : DeviceScheduleRequest) (now cur : ℚ)
    (slot_info : Pool) (hkeys : (poolKeys slot_info).Nodup)
    (hzero : ∀ s ∈ slot_info, s.remaining_solar_w = 0)
    (hW : 0 < d.peak_usage_w) (heff : 0 ≤ effectiveUsageW d)
    (hdist : (getEligibleSlots slot_info now d.deadline).Pairwise
      (fun a b => (slotAt slot_info a).price ≠ (slotAt slot_info b).price)) :
    ∀ (m : ℕ) (states : States),
      (states d.subentry_id).remaining_needed = m →
      (∀ a ∈ (states d.subentry_id).assigned_slots,
        a ∈ getEligibleSlots slot_info now d.deadline) →
      (states d.subentry_id).assigned_slots.Nodup →
      (states d.subentry_id).assigned_slots.length + m ≤
        (getEligibleSlots slot_info now d.deadline).length →
      (∀ a ∈ (states d.subentry_id).assigned_slots,
        ∀ b ∈ getEligibleSlots slot_info now d.deadline,
          b ∉ (states d.subentry_id).assigned_slots →
          (slotAt slot_info a).price < (slotAt slot_info b).price) →
      ∃ st : DeviceState,
        (applyCostOptimalFuel [d] now cur m (states, slot_info)).1 d.subentry_id = st ∧
        st.remaining_needed = 0 ∧
        (∀ a ∈ st.assigned_slots, a ∈ getEligibleSlots slot_info now d.deadline) ∧
        st.assigned_slots.Nodup ∧
        st.assigned_slots.length = (states d.subentry_id).assigned_slots.length + m ∧
        (∀ a ∈ st.assigned_slots, ∀ b ∈ getEligibleSlots slot_info now d.deadline,
          b ∉ st.assigned_slots →
          (slotAt slot_info a).price < (slotAt slot_info b).price) := by
  have hcp : ∀ x ∈ getEligibleSlots slot_info now d.deadline,
      costForDeviceInSlot (slotAt slot_info x) d.peak_usage_w =
        (slotAt slot_info x).price := by
    intro x hx
    have hmem := slotAt_mem (getEligibleSlots_subset_keys slot_info now d.deadline hx)
    have h0 := hzero _ hmem
    unfold costForDeviceInSlot
    dsimp only
    rw [h0, if_neg (not_le.mpr hW), if_neg (lt_irrefl 0)]
  have hdist' : ∀ x ∈ getEligibleSlots slot_info now d.deadline,
      ∀ y ∈ getEligibleSlots slot_info now d.deadline, x ≠ y →
        (slotAt slot_info x).price ≠ (slotAt slot_info y).price :=
    fun x hx y hy hxy => hdist.forall (fun _ _ h => h.symm) hx hy hxy
  have hEnd : (getEligibleSlots slot_info now d.deadline).Nodup :=
    getEligibleSlots_nodup hkeys now d.deadline
  intro m
  induction m with
  | zero =>
    intro states hrem hsub hnd _ hgreedy
    exact ⟨states d.subentry_id, rfl, hrem, hsub, hnd, rfl, hgreedy⟩
  | succ m ih =>
    intro states hrem hsub hnd hlen hgreedy
    have hne0 : (states d.subentry_id).remaining_needed ≠ 0 := by
      rw [hrem]
      exact Nat.succ_ne_zero m
    have hex : ∃ u, u ∈ getEligibleSlots slot_info now d.deadline ∧
        u ∉ (states d.subentry_id).assigned_slots := by
      by_contra hall
      push_neg at hall
      have hsubE : getEligibleSlots slot_info now d.deadline ⊆
          (states d.subentry_id).assigned_slots := fun x hx => hall x hx
      have hle := (hEnd.subperm hsubE).length_le
      omega
    cases hscan : scanEligible d (states d.subentry_id).assigned_slots slot_info
        (getEligibleSlots slot_info now d.deadline) none with
    | none =>
      obtain ⟨u, hu, hua⟩ := hex
      obtain ⟨-, hall⟩ := scanEligible_eq_none d _ slot_info _ none hscan
      exact absurd (hall u hu) hua
    | some res =>
      obtain ⟨rc, rdev, rt⟩ := res
      obtain ⟨h1, h2⟩ := scanEligible_some_spec d _ slot_info _ none (rc, rdev, rt) hscan
      rcases h1 with h1 | h1
      · exact absurd h1.symm (Option.some_ne_none _)
      obtain ⟨hdev, htmem, htnot, hcost⟩ := h1
      dsimp only at hdev htmem htnot hcost
      have hfind : findCheapestAssignment [d] states slot_info now = some (d, rt) := by
        rw [findCheapest_single d states slot_info now hne0, hscan, hdev]
        rfl
      have hmin : ∀ b2 ∈ getEligibleSlots slot_info now d.deadline,
          b2 ∉ (states d.subentry_id).assigned_slots → b2 ≠ rt →
          (slotAt slot_info rt).price < (slotAt slot_info b2).price := by
        intro b2 hb2 hb2a hb2t
        have hbp := h2 b2 hb2 hb2a
        simp only [betterPair, Bool.or_eq_false_iff, Bool.and_eq_false_iff,
          decide_eq_false_iff_not] at hbp
        have hle2 : rc ≤ costForDeviceInSlot (slotAt slot_info b2) d.peak_usage_w :=
          not_lt.mp hbp.1
        rw [hcost, hcp rt htmem, hcp b2 hb2] at hle2
        exact lt_of_le_of_ne hle2 (hdist' rt htmem b2 hb2 (Ne.symm hb2t))
      have hpool : deductSolar slot_info rt (solarConsumptionForDevice d rt cur) =
          slot_info := by
        apply deductSolar_zero
        · unfold solarConsumptionForDevice
          split_ifs
          · exact heff
          · exact hW.le
        · exact hzero
      have hstep : applyCostOptimalFuel [d] now cur (m + 1) (states, slot_info) =
          applyCostOptimalFuel [d] now cur m
            (commitAssignment (states, slot_info) d rt cur) := by
        simp only [applyCostOptimalFuel]
        rw [hfind]
      have hcommit : commitAssignment (states, slot_info) d rt cur =
          (updateState states d.subentry_id
            { states d.subentry_id with
                assigned_slots := (states d.subentry_id).assigned_slots ++ [rt]
                remaining_needed := (states d.subentry_id).remaining_needed - 1 },
           slot_info) := by
        unfold commitAssignment
        dsimp only
        rw [hpool]
      rw [hstep, hcommit]
      have hnew := updateState_self states d.subentry_id
        { states d.subentry_id with
            assigned_slots := (states d.subentry_id).assigned_slots ++ [rt]
            remaining_needed := (states d.subentry_id).remaining_needed - 1 }
      obtain ⟨st, hst, h0', hsub', hnd', hlen', hgr'⟩ := ih
        (updateState states d.subentry_id
          { states d.subentry_id with
              assigned_slots := (states d.subentry_id).assigned_slots ++ [rt]
              remaining_needed := (states d.subentry_id).remaining_needed - 1 })
        (by rw [hnew]; dsimp only; rw [hrem]; omega)
        (by
          rw [hnew]
          dsimp only
          intro a ha
          rcases List.mem_append.mp ha with ha | ha
          · exact hsub a ha
          · rw [List.mem_singleton.mp ha]
            exact htmem)
        (by
          rw [hnew]
          dsimp only
          rw [List.nodup_append]
          exact ⟨hnd, List.nodup_singleton rt,
            fun x hx hxt => htnot ((List.mem_singleton.mp hxt) ▸ hx)⟩)
        (by
          rw [hnew]
          dsimp only
          rw [List.length_append, List.length_singleton]
          omega)
        (by
          rw [hnew]
          dsimp only
          intro a ha b hb hbn
          rw [List.mem_append, not_or, List.mem_singleton] at hbn
          rcases List.mem_append.mp ha with ha | ha
          · exact hgreedy a ha b hb hbn.1
          · rw [List.mem_singleton.mp ha]
            exact hmin b hb hbn.1 hbn.2)
      refine ⟨st, hst, h0', hsub', hnd', ?_, hgr'⟩
      rw [hnew] at hlen'
      dsimp only at hlen'
      rw [List.length_append, List.length_singleton] at hlen'
      omega

/-- C4 (amended): cheapest-first holds for a single device needing `k` slots
with more than `k` eligible slots, zero solar in every slot and pairwise
distinct eligible prices, provided additionally that the device's wattages are
positive (peak) and non-negative (effective): the scheduled slots are `k`
distinct eligible slots each strictly cheaper than every eligible slot left
unscheduled — exactly the `k` cheapest.  The counterexample shows the claim
fails without the wattage proviso. -/
theorem claim_C4_amended (d : DeviceScheduleRequest) (slot_info : Pool) (now : ℚ)
    (hkeys : (poolKeys slot_info).Nodup)
    (hzero : ∀ s ∈ slot_info, s.remaining_solar_w = 0)
    (hW : 0 < d.peak_usage_w) (heff : 0 ≤ effectiveUsageW d)
    (hrun : 0 < remainingRuntimeMin d)
    (hcount : remainingSlotsNeeded d < (getEligibleSlots slot_info now d.deadline).length)
    (hdist : (getEligibleSlots slot_info now d.deadline).Pairwise
      (fun a b => (slotAt slot_info a).price ≠ (slotAt slot_info b).price)) :
    ∃ r : ScheduleResult,
      ((computeSchedulesWithSlotInfo [d] slot_info now).1).find?
          (fun q => q.1 == d.subentry_id) = some (d.subentry_id, r) ∧
      r.scheduled_slots.length = remainingSlotsNeeded d ∧
      (∀ a ∈ r.scheduled_slots, a ∈ getEligibleSlots slot_info now d.deadline) ∧
      r.scheduled_slots.Nodup ∧
      (∀ a ∈ r.scheduled_slots, ∀ b ∈ getEligibleSlots slot_info now d.deadline,
        b ∉ r.scheduled_slots →
        (slotAt slot_info a).price < (slotAt slot_info b).price) := by
  have hinact : [d].filter (fun e => decide (remainingRuntimeMin e ≤ 0)) = [] := by
    simp [List.filter_cons, not_le.mpr hrun]
  have hact : [d].filter (fun e => decide (0 < remainingRuntimeMin e)) = [d] := by
    simp [List.filter_cons, hrun]
  have hsortd : listSort (fun a b : DeviceScheduleRequest =>
      decide (a.priority ≤ b.priority)) [d] = [d] := rfl
  have hs0 : initStates [d] (fun _ => default) d.subentry_id =
      { remaining_needed := remainingSlotsNeeded d, assigned_slots := [],
        forced_on := false } :=
    initStates_lookup (by simp) (List.mem_cons_self d []) _
  have hsp1 : applyDeadlineForced now (getCurrentSlotStart now) [d]
      (initStates [d] (fun _ => default), slot_info) =
      (initStates [d] (fun _ => default), slot_info) := by
    rw [applyDeadlineForced, applyDeadlineForced]
    dsimp only
    rw [hs0]
    dsimp only
    split_ifs with h1
    · rfl
    · rfl
  have hfuel : stateMeasure [d] (initStates [d] (fun _ => default)) =
      remainingSlotsNeeded d := by
    unfold stateMeasure
    rw [List.map_cons, List.map_nil, List.sum_cons, List.sum_nil, hs0]
    rfl
  obtain ⟨st, hst, h0', hsub', hnd', hlen', hgr'⟩ :=
    costOptimalSingleRun d now (getCurrentSlotStart now) slot_info hkeys hzero hW heff
      hdist (remainingSlotsNeeded d) (initStates [d] (fun _ => default))
      (by rw [hs0])
      (by
        rw [hs0]
        intro a ha
        exact absurd ha (List.not_mem_nil a))
      (by rw [hs0]; exact List.nodup_nil)
      (by rw [hs0]; dsimp only; rw [List.length_nil]; omega)
      (by
        rw [hs0]
        intro a ha
        exact absurd ha (List.not_mem_nil a))
  have hfind : ((computeSchedulesWithSlotInfo [d] slot_info now).1).find?
      (fun q => q.1 == d.subentry_id) =
      some (d.subentry_id,
        buildResult d st (computeSchedulesWithSlotInfo [d] slot_info now).2
          (getCurrentSlotStart now)) := by
    simp only [computeSchedulesWithSlotInfo, applyCostOptimal]
    rw [hinact, hact, hsortd]
    rw [if_neg (by simp)]
    dsimp only
    rw [hsp1]
    dsimp only
    rw [hfuel]
    rw [List.map_nil, List.nil_append]
    rw [find?_results_lookup _ (by simp) (List.mem_cons_self d [])]
    rw [hst]
  refine ⟨buildResult d st (computeSchedulesWithSlotInfo [d] slot_info now).2
    (getCurrentSlotStart now), hfind, ?_, ?_, ?_, ?_⟩
  · show (listSort (fun a b => decide (a ≤ b)) st.assigned_slots).length = _
    rw [length_listSort, hlen', hs0]
    dsimp only
    rw [List.length_nil, Nat.zero_add]
  · intro a ha
    have ha2 : a ∈ st.assigned_slots := by
      have := mem_listSort.mp (ha : a ∈ listSort (fun a b => decide (a ≤ b))
        st.assigned_slots)
      exact this
    exact hsub' a ha2
  · exact nodup_listSort hnd'
  · intro a ha b hb hbn
    have ha2 : a ∈ st.assigned_slots := mem_listSort.mp ha
    have hbn2 : b ∉ st.assigned_slots := fun hc => hbn (mem_listSort.mpr hc)
    exact hgr' a ha2 b hb hbn2

/-- Boolean equality on rationals is decidable equality (definitional). -/
theorem rat_beq_def (a b : ℚ) : (a == b) = decide (a = b) := rfl

/-! ### Adequacy of the fuelled phase-2 loop -/

/-- When every device's need is met the device scan keeps its `none` start. -/
theorem scanDevices_zero (states : States) (pool : Pool) (now : ℚ) :
    ∀ (L : List DeviceScheduleRequest),
      (∀ e ∈ L, (states e.subentry_id).remaining_needed = 0) →
      scanDevices states pool now L none = none := by
  intro L
  induction L with
  | nil => exact fun _ => rfl
  | cons x ds ih =>
    intro h
    rw [scanDevices]
    rw [if_pos (h x (List.mem_cons_self x ds))]
    exact ih (fun e he => h e (List.mem_cons_of_mem x he))

/-- With the loop variant at zero, `_find_cheapest_assignment` finds nothing. -/
theorem findCheapest_zero {devices : List DeviceScheduleRequest} {states : States}
    {pool : Pool} {now : ℚ} (h : stateMeasure devices states = 0) :
    findCheapestAssignment devices states pool now = none := by
  unfold findCheapestAssignment
  rw [scanDevices_zero states pool now devices ?hz]
  · rfl
  case hz =>
    intro e he
    unfold stateMeasure at h
    rw [List.sum_eq_zero_iff] at h
    exact h _ (List.mem_map_of_mem _ he)

/-- Every committed assignment strictly decreases the loop variant. -/
theorem stateMeasure_commit_lt {devices : List DeviceScheduleRequest}
    {sp : States × Pool} {dev : DeviceScheduleRequest} {t : ℚ} {now : ℚ} (cur : ℚ)
    (h : findCheapestAssignment devices sp.1 sp.2 now = some (dev, t)) :
    stateMeasure devices (commitAssignment sp dev t cur).1 <
      stateMeasure devices sp.1 := by
  obtain ⟨hdev, hne, -, -⟩ := findCheapestAssignment_spec h
  have hfst : ∀ i : String, (commitAssignment sp dev t cur).1 i =
      (if i = dev.subentry_id then
        { sp.1 dev.subentry_id with
            assigned_slots := (sp.1 dev.subentry_id).assigned_slots ++ [t]
            remaining_needed := (sp.1 dev.subentry_id).remaining_needed - 1 }
       else sp.1 i) := fun i => rfl
  unfold stateMeasure
  apply List.sum_lt_sum
  · intro e he
    rw [hfst]
    split_ifs with hid
    · dsimp only
      rw [hid]
      omega
    · exact le_refl _
  · refine ⟨dev, hdev, ?_⟩
    rw [hfst, if_pos rfl]
    dsimp only
    omega

/-- One unit of fuel beyond the loop variant is never used. -/
theorem applyCostOptimalFuel_succ (devices : List DeviceScheduleRequest)
    (now cur : ℚ) :
    ∀ (n : ℕ) (sp : States × Pool), stateMeasure devices sp.1 ≤ n →
      applyCostOptimalFuel devices now cur (n + 1) sp =
        applyCostOptimalFuel devices now cur n sp := by
  intro n
  induction n with
  | zero =>
    intro sp h
    conv_lhs => rw [applyCostOptimalFuel]
    rw [findCheapest_zero (Nat.le_zero.mp h)]
    rfl
  | succ n ih =>
    intro sp h
    conv_lhs => rw [applyCostOptimalFuel]
    conv_rhs => rw [applyCostOptimalFuel]
    cases hf : findCheapestAssignment devices sp.1 sp.2 now with
    | none => rfl
    | some devt =>
      obtain ⟨dev, t⟩ := devt
      exact ih _ (by have := stateMeasure_commit_lt cur hf; omega)

/-- Fuel adequacy: with at least the loop variant's worth of fuel, the fuelled
loop computes `_apply_cost_optimal`, so adding fuel never changes the result
and the embedding agrees with the unbounded `while True` loop. -/
theorem applyCostOptimalFuel_congr (devices : List DeviceScheduleRequest)
    (now cur : ℚ) :
    ∀ (n : ℕ) (sp : States × Pool), stateMeasure devices sp.1 ≤ n →
      applyCostOptimalFuel devices now cur n sp =
        applyCostOptimal devices now cur sp := by
  intro n
  induction n with
  | zero =>
    intro sp h
    unfold applyCostOptimal
    rw [Nat.le_zero.mp h]
  | succ n ih =>
    intro sp h
    by_cases hm : stateMeasure devices sp.1 ≤ n
    · rw [applyCostOptimalFuel_succ devices now cur n sp hm]
      exact ih sp hm
    · unfold applyCostOptimal
      rw [show stateMeasure devices sp.1 = n + 1 by omega]

/-- C4 (counterexample): with a 0 W device (the config flow allows peak 0),
every zero-solar slot costs the fixed export bonus `-1.0` instead of its
price, so ties are broken by scan order and the device gets the FIRST
eligible slot, not the cheapest.  Here prices are 5 then 1 with one slot
needed: the claim demands the 0.25 EUR slot at 10:30, the code assigns the
1.25 EUR slot at 10:15. -/
theorem claim_C4_counterexample :
    (let d : DeviceScheduleRequest :=
      { subentry_id := "d1", name := "washer", switch_entity := "sw",
        power_sensor := "pw", peak_usage_w := 0, daily_runtime_min := 15,
        deadline := ⟨23, 0, 0⟩, priority := 5 }
     let pool : Pool :=
      [{ start_time := 36900, price := 5, energy_price := 0,
         solar_production_w := 0, solar_surplus_w := 0, remaining_solar_w := 0 },
       { start_time := 37800, price := 1, energy_price := 0,
         solar_production_w := 0, solar_surplus_w := 0, remaining_solar_w := 0 }]
     (∀ s ∈ pool, s.remaining_solar_w = 0) ∧
     remainingSlotsNeeded d = 1 ∧
     getEligibleSlots pool 36030 d.deadline = [36900, 37800] ∧
     (slotAt pool 36900).price = 5 ∧
     (slotAt pool 37800).price = 1 ∧
     ∃ r : ScheduleResult,
       ((computeSchedulesWithSlotInfo [d] pool 36030).1).find?
           (fun q => q.1 == d.subentry_id) = some (d.subentry_id, r) ∧
       r.scheduled_slots = [36900] ∧
       ¬ ((slotAt pool 36900).price < (slotAt pool 37800).price)) := by
  dsimp only
  refine ⟨by norm_num, ?_, ?_, ?_, ?_, ?_⟩
  · norm_num [remainingSlotsNeeded, remainingRuntimeMin, SLOT_DURATION_MIN]
  · norm_num [getEligibleSlots, deadlineDt, dayStart, listSort, insertSorted]
  · decide
  · decide
  · refine ⟨{ subentry_id := "d1", should_be_on := false,
              remaining_runtime_min := 15, scheduled_slots := [36900],
              reason := "Waiting for cheaper slot" }, ?_, rfl, by decide⟩
    norm_num [computeSchedulesWithSlotInfo, applyCostOptimal, applyCostOptimalFuel,
      stateMeasure, applyDeadlineForced, forceAssignSlots, getEligibleSlots,
      deadlineDt, dayStart, getCurrentSlotStart, snapToSlot, hourStart, minuteOf,
      listSort, insertSorted, initStates, updateState, findCheapestAssignment,
      scanDevices, scanEligible, betterPair, costForDeviceInSlot, slotAt,
      commitAssignment, deductSolar, solarConsumptionForDevice, effectiveUsageW,
      buildResult, determineReason, remainingRuntimeMin, remainingSlotsNeeded,
      SLOT_DURATION_MIN, List.find?, List.filter, rat_beq_def]

/-- C4 (witness): the amended theorem at a concrete input — a 1000 W device
needing one slot, two zero-solar eligible slots priced 5 then 1; the
conclusion forces the scheduled slot to be the strictly cheapest one. -/
theorem claim_C4_amended_witness :
    (let d : DeviceScheduleRequest :=
      { subentry_id := "d2", name := "washer", switch_entity := "sw",
        power_sensor := "pw", peak_usage_w := 1000, daily_runtime_min := 15,
        deadline := ⟨23, 0, 0⟩, priority := 5 }
     let pool : Pool :=
      [{ start_time := 36900, price := 5, energy_price := 0,
         solar_production_w := 0, solar_surplus_w := 0, remaining_solar_w := 0 },
       { start_time := 37800, price := 1, energy_price := 0,
         solar_production_w := 0, solar_surplus_w := 0, remaining_solar_w := 0 }]
     ∃ r : ScheduleResult,
       ((computeSchedulesWithSlotInfo [d] pool 36030).1).find?
           (fun q => q.1 == d.subentry_id) = some (d.subentry_id, r) ∧
       r.scheduled_slots.length = remainingSlotsNeeded d ∧
       (∀ a ∈ r.scheduled_slots, a ∈ getEligibleSlots pool 36030 d.deadline) ∧
       r.scheduled_slots.Nodup ∧
       (∀ a ∈ r.scheduled_slots, ∀ b ∈ getEligibleSlots pool 36030 d.deadline,
         b ∉ r.scheduled_slots →
         (slotAt pool a).price < (slotAt pool b).price)) := by
  dsimp only
  exact claim_C4_amended
    ({ subentry_id := "d2", name := "washer", switch_entity := "sw",
       power_sensor := "pw", peak_usage_w := 1000, daily_runtime_min := 15,
       deadline := ⟨23, 0, 0⟩, priority := 5 } : DeviceScheduleRequest)
    [{ start_time := 36900, price := 5, energy_price := 0,
       solar_production_w := 0, solar_surplus_w := 0, remaining_solar_w := 0 },
     { start_time := 37800, price := 1, energy_price := 0,
       solar_production_w := 0, solar_surplus_w := 0, remaining_solar_w := 0 }]
    36030 (by decide) (by decide) (by decide) (by decide)
    (by norm_num [remainingRuntimeMin])
    (by norm_num [remainingSlotsNeeded, remainingRuntimeMin, SLOT_DURATION_MIN,
      getEligibleSlots, deadlineDt, dayStart, listSort, insertSorted])
    (by
      dsimp only
      have helig : getEligibleSlots
          [{ start_time := 36900, price := 5, energy_price := 0,
             solar_production_w := 0, solar_surplus_w := 0, remaining_solar_w := 0 },
           { start_time := 37800, price := 1, energy_price := 0,
             solar_production_w := 0, solar_surplus_w := 0, remaining_solar_w := 0 }]
          36030 (⟨23, 0, 0⟩ : TimeOfDay) = [36900, 37800] := by
        norm_num [getEligibleSlots, deadlineDt, dayStart, listSort, insertSorted]
      rw [helig]
      decide)

end Zeus
